import Mathlib

/-!
Shallow embedding of the TeamKilo/kilo_server game-session core
(src/notify.rs, src/game/mod.rs, src/game/search.rs, src/game/connect4.rs,
src/game/adapter.rs) together with theorems settling the frozen claims
about the natural-language specification of that core.

Modelling conventions, used uniformly below:
  - Rust machine integers (usize, u8) are Nat with explicit bounds where
    overflow or width matters (bytes carry an explicit b < 256 bound).
  - Timestamps (chrono DateTime of Utc) are Int, in an arbitrary fixed unit;
    the GC time-to-live of Duration of minutes 5 is the constant gcTtl.
  - Rust text (String, str) is modelled as List Char; the UTF-8 byte length
    of Rust String.len is modelled by summing Char.utf8Size.
  - Fallible Rust code returning actix_web Result is embedded as a sum type;
    panic and assert branches are embedded explicitly as a dedicated
    panicked outcome so that unreachability of panics is a provable statement.
  - Randomness (GameId.new, SessionId.new, thread_rng) is modelled by
    passing the generated value as an explicit parameter; the retry loops
    that regenerate colliding ids are modelled by a freshness hypothesis on
    that parameter in the theorems that need it.
  - The tokio broadcast channel backing the Notifier is modelled by an
    explicit queue of pending broadcast values plus a closed flag on the
    subscription; a recv that would suspend past the 5 second timeout is the
    case of an empty pending queue with the channel still open.
-/

set_option maxRecDepth 20000

namespace KiloServer

/-! ## Stage (src/game/adapter.rs) -/

/-- Stage enumeration from src/game/adapter.rs: Waiting, InProgress, Ended
(declaration order gives the derived ordering used by the search engine). -/
inductive Stage where
  | Waiting
  | InProgress
  | Ended
deriving DecidableEq, Repr

/-- Rank of a stage in declaration order; Ord.cmp on the Rust enum compares
these ranks. -/
def Stage.rank : Stage → Nat
  | .Waiting => 0
  | .InProgress => 1
  | .Ended => 2

/-- Comparison of stages, as the derived Ord on the Rust enum. -/
def Stage.cmp (a b : Stage) : Ordering := Ord.compare a.rank b.rank

/-! ## Change notifier (src/notify.rs) -/

/-- Notifier state: the atomic logical clock (AtomicUsize, starts at 1).
The broadcast sender itself carries no state we need beyond the
subscriptions it feeds, which are modelled separately. -/
structure Notifier where
  clock : Nat
deriving DecidableEq, Repr

/-- Subscription state: the snapshot of the clock taken at subscribe time,
the queue of broadcast values sent after the subscribe and not yet received,
and whether the sending side has been dropped. -/
structure Subscription where
  clock : Nat
  pending : List Nat
  closed : Bool
deriving DecidableEq, Repr

/-- Result of Subscription.wait: Ok of a clock value, or the internal
notification error produced when the broadcast source is closed. -/
inductive WaitResult where
  | ok : Nat → WaitResult
  | notifierError : WaitResult
deriving DecidableEq, Repr

/-- Notifier.new: clock starts at 1. -/
def Notifier.new : Notifier := ⟨1⟩

/-- Notifier.send from src/notify.rs line 38: the value passed to
sender.send is the return value of clock.fetch_add(1), which in Rust is the
value the clock held BEFORE the increment. Returns the new notifier state
and the broadcast value. -/
def Notifier.send (n : Notifier) : Notifier × Nat :=
  (⟨n.clock + 1⟩, n.clock)

/-- Notifier.subscribe: snapshots the current clock; the new subscription
starts with an empty receive queue on an open channel. -/
def Notifier.subscribe (n : Notifier) : Subscription :=
  ⟨n.clock, [], false⟩

/-- Delivery of one broadcast value to a live subscription's queue. -/
def Subscription.deliver (s : Subscription) (v : Nat) : Subscription :=
  { s with pending := s.pending ++ [v] }

/-- One send observed by one subscription: the notifier increments its clock
and the pre-increment value is appended to the subscription's queue. -/
def sendObserved : Notifier × Subscription → Notifier × Subscription
  | (n, s) =>
    let (n2, v) := n.send
    (n2, s.deliver v)

/-- Iterated sends observed by one subscription. -/
def sendsObserved (p : Notifier × Subscription) : Nat → Notifier × Subscription
  | 0 => p
  | k + 1 => sendsObserved (sendObserved p) k

/-- Subscription.wait from src/notify.rs lines 52-62. If the snapshot clock
exceeds since, the snapshot is returned with no suspension. Otherwise recv
is awaited under the 5 second timeout: a queued broadcast value is returned
as Ok; an empty queue on a closed channel is the notification error; an
empty queue on an open channel means the timeout elapses and the snapshot
clock is returned as Ok. -/
def Subscription.wait (s : Subscription) (since : Nat) : WaitResult :=
  if s.clock > since then
    .ok s.clock
  else
    match s.pending with
    | v :: _ => .ok v
    | [] => if s.closed then .notifierError else .ok s.clock

end KiloServer

namespace KiloServer

/-! ## Base32 codec

Model of the external base32 crate as called by src/game/mod.rs lines
31-37 (RFC4648 alphabet, padding disabled).  The crate packs bytes MSB
first into 5-bit groups, zero-filling the tail, and emits one alphabet
character per group; decode maps characters back to 5-bit values (after
ASCII uppercasing), reassembles bytes and truncates to len * 5 / 8 bytes.
The crate additionally tolerates trailing '=' padding characters on
decode; ids produced by encode never contain '=', and that quirk is not
modelled here. -/

/-- The eight bits of a byte, most significant first. -/
def byteToBits (b : Nat) : List Bool :=
  [b.testBit 7, b.testBit 6, b.testBit 5, b.testBit 4,
   b.testBit 3, b.testBit 2, b.testBit 1, b.testBit 0]

/-- Concatenated bits of a byte sequence, most significant first. -/
def bytesToBits (bs : List Nat) : List Bool :=
  (bs.map byteToBits).flatten

/-- Value of a bit list read most significant first. -/
def bitsToNat (l : List Bool) : Nat :=
  l.foldl (fun n b => 2 * n + b.toNat) 0

/-- The five bits of a 5-bit group value, most significant first. -/
def valToBits (v : Nat) : List Bool :=
  [v.testBit 4, v.testBit 3, v.testBit 2, v.testBit 1, v.testBit 0]

/-- Zero-fill a bit list on the right up to a multiple of n bits. -/
def zeroPad (n : Nat) (l : List Bool) : List Bool :=
  l ++ List.replicate ((n - l.length % n) % n) false

/-- Split a bit list into groups of five (any shorter tail kept as is;
callers always pass lists whose length is a multiple of five). -/
def chunksOf5 : List Bool → List (List Bool)
  | [] => []
  | b0 :: b1 :: b2 :: b3 :: b4 :: rest => [b0, b1, b2, b3, b4] :: chunksOf5 rest
  | l => [l]

/-- Split a bit list into groups of eight (any shorter tail kept as is;
callers always pass lists whose length is a multiple of eight). -/
def chunksOf8 : List Bool → List (List Bool)
  | b0 :: b1 :: b2 :: b3 :: b4 :: b5 :: b6 :: b7 :: rest =>
    [b0, b1, b2, b3, b4, b5, b6, b7] :: chunksOf8 rest
  | [] => []
  | l => [l]

/-- RFC4648 base32 alphabet. -/
def b32Alphabet : List Char :=
  ['A', 'B', 'C', 'D', 'E', 'F', 'G', 'H', 'I', 'J', 'K', 'L', 'M',
   'N', 'O', 'P', 'Q', 'R', 'S', 'T', 'U', 'V', 'W', 'X', 'Y', 'Z',
   '2', '3', '4', '5', '6', '7']

/-- Character for a 5-bit group value. -/
def encodeVal (v : Nat) : Char := b32Alphabet.getD v 'A'

/-- Inverse alphabet lookup, after ASCII uppercasing as the crate does. -/
def decodeVal (c : Char) : Option Nat :=
  let u := c.toUpper
  if 'A' ≤ u ∧ u ≤ 'Z' then some (u.toNat - 'A'.toNat)
  else if '2' ≤ u ∧ u ≤ '7' then some (u.toNat - '2'.toNat + 26)
  else none

/-- base32::encode with the RFC4648 no-padding alphabet. -/
def base32_encode (bs : List Nat) : List Char :=
  (chunksOf5 (zeroPad 5 (bytesToBits bs))).map (fun c => encodeVal (bitsToNat c))

/-- Character-by-character inverse alphabet pass of base32::decode; any
invalid character fails the whole decode. -/
def decodeVals : List Char → Option (List Nat)
  | [] => some []
  | c :: cs =>
    match decodeVal c, decodeVals cs with
    | some v, some vs => some (v :: vs)
    | _, _ => none

/-- base32::decode with the RFC4648 no-padding alphabet: map characters to
5-bit values, reassemble bytes MSB first (zero-filling the final group as
the crate's chunk buffer does) and truncate to len * 5 / 8 bytes. -/
def base32_decode (s : List Char) : Option (List Nat) :=
  match decodeVals s with
  | none => none
  | some vals =>
    some (((chunksOf8 (zeroPad 8 ((vals.map valToBits).flatten))).map bitsToNat).take
      (s.length * 5 / 8))

/-! ## Identifiers (src/game/mod.rs lines 31-150) -/

/-- encode_id from src/game/mod.rs line 31. -/
def encode_id (bs : List Nat) : List Char := base32_encode bs

/-- decode_id from src/game/mod.rs line 35. -/
def decode_id (s : List Char) : Option (List Nat) := base32_decode s

/-- GameId: a 4-byte random value (src/game/mod.rs line 41).  The bytes are
Nat with a wellformedness bound below. -/
structure GameId where
  bytes : List Nat
deriving DecidableEq, Repr

/-- SessionId: a 16-byte random value (src/game/mod.rs line 45). -/
structure SessionId where
  bytes : List Nat
deriving DecidableEq, Repr

/-- A value as produced by GameId::new: 4 random bytes. -/
def GameId.Wf (g : GameId) : Prop :=
  g.bytes.length = 4 ∧ ∀ b ∈ g.bytes, b < 256

/-- A value as produced by SessionId::new: 16 random bytes. -/
def SessionId.Wf (s : SessionId) : Prop :=
  s.bytes.length = 16 ∧ ∀ b ∈ s.bytes, b < 256

/-- The text p of the game id scheme game_<encoded>. -/
def gameIdTag : List Char := ['g', 'a', 'm', 'e', '_']

/-- The text p of the session id scheme session_<encoded>. -/
def sessionIdTag : List Char := ['s', 'e', 's', 's', 'i', 'o', 'n', '_']

/-- Display rendering of a GameId (src/game/mod.rs line 40). -/
def GameId.toText (g : GameId) : List Char := gameIdTag ++ encode_id g.bytes

/-- Display rendering of a SessionId (src/game/mod.rs line 44). -/
def SessionId.toText (s : SessionId) : List Char := sessionIdTag ++ encode_id s.bytes

/-- Leading-tag removal: id.starts_with p followed by taking
id[p.len()..], fused into one recursion; none when the tag is absent. -/
def dropTag : List Char → List Char → Option (List Char)
  | [], s => some s
  | _ :: _, [] => none
  | p :: ps, c :: cs => if c = p then dropTag ps cs else none

/-- validate_id from src/game/mod.rs lines 54-63: require the tag, then
decode the remainder; any failure is the invalid-id error, modelled as
none. -/
def validate_id (id : List Char) (tag : List Char) : Option (List Nat) :=
  match dropTag tag id with
  | none => none
  | some rest => decode_id rest

/-- GameIdVisitor::visit_str from src/game/mod.rs lines 94-101: validate
against the game tag and require exactly 4 decoded bytes. -/
def GameId.visit_str (s : List Char) : Option GameId :=
  match validate_id s gameIdTag with
  | none => none
  | some bs => if bs.length = 4 then some ⟨bs⟩ else none

/-- SessionIdVisitor::visit_str from src/game/mod.rs lines 137-145:
validate against the session tag and require exactly 16 decoded bytes. -/
def SessionId.visit_str (s : List Char) : Option SessionId :=
  match validate_id s sessionIdTag with
  | none => none
  | some bs => if bs.length = 16 then some ⟨bs⟩ else none

end KiloServer

namespace KiloServer

/-! ## JSON values (serde_json::Value) -/

/-- Model of serde_json::Value, as used for opaque move and state payloads.
Objects are association lists of key and value pairs. -/
inductive Json where
  | null : Json
  | bool : Bool → Json
  | num : Int → Json
  | str : List Char → Json
  | arr : List Json → Json
  | obj : List (List Char × Json) → Json

/-- Map lookup on a serde_json object. -/
def lookupField : List (List Char × Json) → List Char → Option Json
  | [], _ => none
  | (k0, v0) :: rest, k => if k0 = k then some v0 else lookupField rest k

/-- Map insert on a serde_json object: replace the value at the key if it is
present, otherwise add the binding. -/
def insertField : List (List Char × Json) → List Char → Json → List (List Char × Json)
  | [], k, v => [(k, v)]
  | (k0, v0) :: rest, k, v =>
    if k0 = k then (k0, v) :: rest else (k0, v0) :: insertField rest k v

/-! ## Error taxonomy (src/game/adapter.rs, src/game/mod.rs) -/

/-- GameAdapterErrorType from src/game/adapter.rs lines 19-26. -/
inductive GameAdapterErrorType where
  | InvalidPlayer : List Char → GameAdapterErrorType
  | InvalidMove : List Char → GameAdapterErrorType
  | InvalidGameStage : Stage → GameAdapterErrorType
deriving DecidableEq, Repr

/-- InvalidUsernameReason from src/game/mod.rs lines 155-162. -/
inductive InvalidUsernameReason where
  | AlreadyInGame : GameId → InvalidUsernameReason
  | TooShort : InvalidUsernameReason
  | TooLong : InvalidUsernameReason
deriving DecidableEq, Repr

/-- The typed recoverable errors a manager operation can return: the
GameManagerError variants of src/game/mod.rs lines 164-177, the adapter
errors (GameAdapterError carries the game id), and the error produced when
serde_json::from_value rejects a move payload in play_move. -/
inductive GameError where
  | GameNotFound : GameId → GameError
  | SessionNotFound : SessionId → GameError
  | InvalidUsername : List Char → InvalidUsernameReason → GameError
  | InvalidPage : GameError
  | adapter : GameId → GameAdapterErrorType → GameError
  | deserialize : GameError
deriving DecidableEq, Repr

/-- Outcome of running an operation: a value, a typed recoverable error, or
a panic (assert failure, unwrap of None, or an explicit panic branch).
Panics abort the process in Rust; they are modelled as a distinct outcome so
that their unreachability can be stated and proved. -/
inductive RunResult (α : Type) where
  | ok : α → RunResult α
  | err : GameError → RunResult α
  | panicked : RunResult α
deriving DecidableEq, Repr

/-! ## Connect4 adapter (src/game/connect4.rs)

The adapter functions take and return the adapter state explicitly; Rust
mutates in place through a mutable borrow.  Each error case returns the
state exactly as the Rust code has mutated it up to that return point, so
statements about state preservation on error are real statements about the
order of mutation and validation in the source. -/

def NUM_PLAYERS : Nat := 2
def ROW_SIZE : Nat := 6
def COL_SIZE : Nat := 7
def CONNECT_FOUR : Nat := 4

/-- Board token from src/game/connect4.rs lines 41-45. -/
inductive Token where
  | Red
  | Blue
deriving DecidableEq, Repr

/-- Connect4 core state from src/game/connect4.rs lines 34-39: the board is
a vector of columns, each a variable-length stack of tokens. -/
structure Connect4 where
  game_id : GameId
  completed : Bool
  turn : Token
  board : List (List Token)
deriving DecidableEq, Repr

/-- Connect4Adapter state from src/game/connect4.rs lines 15-22. -/
structure Connect4Adapter where
  game_id : GameId
  players : List (List Char)
  stage : Stage
  notifier : Notifier
  game : Connect4
  winner : List (List Char)
deriving DecidableEq, Repr

/-- GameType from src/game/mod.rs lines 26-29 (a single registered kind). -/
inductive GameType where
  | Connect4
deriving DecidableEq, Repr

/-- Comparison on GameType (derived Ord on a single-variant enum). -/
def GameType.cmp : GameType → GameType → Ordering
  | .Connect4, .Connect4 => .eq

/-- GenericGameState from src/game/adapter.rs lines 61-68. -/
structure GenericGameState where
  players : List (List Char)
  can_move : List (List Char)
  winners : List (List Char)
  stage : Stage
  payload : Json

/-- GenericGameMove from src/game/adapter.rs lines 70-74. -/
structure GenericGameMove where
  player : List Char
  payload : Json

/-- Connect4Adapter::new (src/game/connect4.rs lines 48-65). -/
def Connect4Adapter.new (game_id : GameId) : Connect4Adapter :=
  { game_id := game_id
    players := []
    stage := Stage.Waiting
    notifier := Notifier.new
    game := { game_id := game_id, completed := false, turn := Token.Red,
              board := List.replicate COL_SIZE [] }
    winner := [] }

/-- Connect4Adapter::get_stage. -/
def Connect4Adapter.get_stage (a : Connect4Adapter) : Stage := a.stage

/-- Connect4Adapter::get_type (the adapter's registered kind). -/
def Connect4Adapter.get_type (_ : Connect4Adapter) : GameType := GameType.Connect4

/-- Connect4Adapter::has_player (src/game/connect4.rs lines 83-85). -/
def Connect4Adapter.has_player (a : Connect4Adapter) (username : List Char) : Bool :=
  a.players.any (fun s => decide (s = username))

/-- Connect4Adapter::add_player (src/game/connect4.rs lines 71-81): two
asserts (capacity below NUM_PLAYERS and stage Waiting), then push the
player, move to InProgress when full, and send on the notifier. -/
def Connect4Adapter.add_player (a : Connect4Adapter) (username : List Char) :
    Connect4Adapter × RunResult Unit :=
  if a.players.length < NUM_PLAYERS then
    if a.stage = Stage.Waiting then
      let players2 := a.players ++ [username]
      let stage2 := if players2.length = NUM_PLAYERS then Stage.InProgress else a.stage
      ({ a with players := players2, stage := stage2, notifier := (a.notifier.send).1 },
        .ok ())
    else (a, .panicked)
  else (a, .panicked)

/-- Connect4Adapter::get_user_from_token (src/game/connect4.rs lines
166-172) without its final unwrap: none is the panic case. -/
def Connect4Adapter.get_user_from_token (a : Connect4Adapter) : Option (List Char) :=
  match a.game.turn with
  | Token.Red => a.players[0]?
  | Token.Blue => a.players[1]?

/-- Connect4::get_cell_at (src/game/connect4.rs lines 176-181). -/
def Connect4.get_cell_at (g : Connect4) (row col : Int) : Option Token :=
  if row < 0 ∨ col < 0 ∨ row ≥ (ROW_SIZE : Int) ∨ col ≥ (COL_SIZE : Int) then none
  else
    match g.board[col.toNat]? with
    | none => none
    | some column => column[row.toNat]?

/-- Message text of the out-of-range InvalidMove. -/
def columnMissingMsg (column : Nat) : List Char :=
  "column ".toList ++ Nat.toDigits 10 column ++ " does not exist".toList

/-- Message text of the full-column InvalidMove. -/
def columnFullMsg (column : Nat) : List Char :=
  "column ".toList ++ Nat.toDigits 10 column ++ " is already full".toList

/-- Connect4::insert_move_if_legal (src/game/connect4.rs lines 183-198):
reject a column index beyond COL_SIZE or a full column with InvalidMove,
otherwise push the mover's token onto that column.  The unwraps on
board.get are guarded by the COL_SIZE bound (the board always holds
COL_SIZE columns) and are modelled by total indexing with a default. -/
def Connect4.insert_move_if_legal (g : Connect4) (column : Nat) :
    Connect4 × RunResult Unit :=
  if column ≥ COL_SIZE then
    (g, .err (.adapter g.game_id (.InvalidMove (columnMissingMsg column))))
  else if (g.board.getD column []).length ≥ ROW_SIZE then
    (g, .err (.adapter g.game_id (.InvalidMove (columnFullMsg column))))
  else
    ({ g with board := g.board.set column ((g.board.getD column []) ++ [g.turn]) }, .ok ())

/-- Connect4::switch_token (src/game/connect4.rs lines 200-205). -/
def Connect4.switch_token (g : Connect4) : Connect4 :=
  { g with turn := match g.turn with | Token.Red => Token.Blue | Token.Blue => Token.Red }

/-- One directed run count of the while loops inside winning_move: how many
consecutive cells starting at (row, col) and stepping by (drow, dcol) hold
the mover's token.  The fuel bounds the walk; any in-board run is shorter
than ROW_SIZE + COL_SIZE, so the fuel used at the call site never truncates
a run. -/
def Connect4.countRun (g : Connect4) (t : Token) (row col drow dcol : Int) : Nat → Nat
  | 0 => 0
  | fuel + 1 =>
    if g.get_cell_at row col = some t then
      1 + Connect4.countRun g t (row + drow) (col + dcol) drow dcol fuel
    else 0

/-- Connect4::winning_move (src/game/connect4.rs lines 206-235): counts
token runs from the just-played cell in the seven directions Down, Left,
Right, LeftUp, RightDown, LeftDown, RightUp and tests the four-in-a-row
thresholds exactly as the source does. -/
def Connect4.winning_move (g : Connect4) (column : Nat) : Bool :=
  if column ≥ COL_SIZE then false
  else
    let row : Int := (((g.board.getD column []).length - 1 : Nat) : Int)
    let dirCol : List Int := [0, -1, 1, -1, 1, -1, 1]
    let dirRow : List Int := [-1, 0, 0, 1, -1, -1, 1]
    let lengths : List Nat := (List.range 7).map (fun counter =>
      Connect4.countRun g g.turn row (column : Int)
        (dirRow.getD counter 0) (dirCol.getD counter 0) (ROW_SIZE + COL_SIZE))
    if lengths.getD 0 0 ≥ CONNECT_FOUR then true
    else
      (List.range 3).any (fun pair =>
        decide (lengths.getD (2 * pair + 1) 0 + lengths.getD (2 * pair + 2) 0 > CONNECT_FOUR))

/-- Connect4::is_game_drawn (src/game/connect4.rs lines 237-239). -/
def Connect4.is_game_drawn (g : Connect4) : Bool :=
  g.board.all (fun col => decide (col.length = ROW_SIZE))

/-- Connect4::moves (src/game/connect4.rs lines 241-250): reject once the
game is completed, otherwise insert the move if legal. -/
def Connect4.moves (g : Connect4) (column : Nat) : Connect4 × RunResult Unit :=
  if g.completed then
    (g, .err (.adapter g.game_id (.InvalidGameStage Stage.Ended)))
  else g.insert_move_if_legal column

/-- serde_json::from_value for Connect4RequestPayload (a struct with one
usize field named column): the payload must be an object whose column field
is a non-negative integer; other fields are ignored. -/
def parseConnect4Payload : Json → Option Nat
  | Json.obj fields =>
    match lookupField fields "column".toList with
    | some (Json.num n) => if 0 ≤ n then some n.toNat else none
    | _ => none
  | _ => none

/-- Connect4Adapter::play_move (src/game/connect4.rs lines 87-125),
statement by statement: stage checks, payload deserialization, turn-owner
check, board insertion through moves, then win/draw detection, winner
recording, stage transition or token switch, and a notifier send.  Every
error return hands back the adapter state exactly as mutated so far (the
source mutates nothing before its error returns). -/
def Connect4Adapter.play_move (a : Connect4Adapter) (game_move : GenericGameMove) :
    Connect4Adapter × RunResult Unit :=
  if a.stage = Stage.Waiting then
    (a, .err (.adapter a.game_id (.InvalidGameStage a.stage)))
  else if a.stage = Stage.Ended then
    (a, .err (.adapter a.game_id (.InvalidGameStage a.stage)))
  else
    match parseConnect4Payload game_move.payload with
    | none => (a, .err .deserialize)
    | some column =>
      match a.get_user_from_token with
      | none => (a, .panicked)
      | some player =>
        if player ≠ game_move.player then
          (a, .err (.adapter a.game_id (.InvalidPlayer game_move.player)))
        else
          match a.game.moves column with
          | (g1, .err e) => ({ a with game := g1 }, .err e)
          | (g1, .panicked) => ({ a with game := g1 }, .panicked)
          | (g1, .ok _) =>
            let win := g1.winning_move column
            let draw := g1.is_game_drawn
            let winner2 := if win then a.winner ++ [player] else a.winner
            if win ∨ draw then
              ({ a with game := { g1 with completed := true }, stage := Stage.Ended,
                        winner := winner2, notifier := (a.notifier.send).1 }, .ok ())
            else
              ({ a with game := g1.switch_token, winner := winner2,
                        notifier := (a.notifier.send).1 }, .ok ())

/-- Player name of one board token (players.get(0) for Red, players.get(1)
for Blue); none is the unwrap panic in get_encoded_state. -/
def Connect4Adapter.tokenOwner (a : Connect4Adapter) : Token → Option (List Char)
  | Token.Red => a.players[0]?
  | Token.Blue => a.players[1]?

/-- Encoding of one board column for get_encoded_state. -/
def Connect4Adapter.encodeColumn (a : Connect4Adapter) : List Token → Option (List (List Char))
  | [] => some []
  | t :: ts =>
    match a.tokenOwner t, a.encodeColumn ts with
    | some u, some us => some (u :: us)
    | _, _ => none

/-- Encoding of the whole board for get_encoded_state. -/
def Connect4Adapter.encodeBoard (a : Connect4Adapter) : List (List Token) → Option (List (List (List Char)))
  | [] => some []
  | col :: cols =>
    match a.encodeColumn col, a.encodeBoard cols with
    | some c, some cs => some (c :: cs)
    | _, _ => none

/-- Connect4Adapter::get_encoded_state (src/game/connect4.rs lines
131-164): encode the board as player names (an unwrap panics if a token has
no matching player), set can_move to the current mover while in progress
(again through an unwrap), and wrap the cells in the serde object payload.
The serde_json::to_value call on the response struct cannot fail. -/
def Connect4Adapter.get_encoded_state (a : Connect4Adapter) : RunResult GenericGameState :=
  match a.encodeBoard a.game.board with
  | none => .panicked
  | some cells =>
    match (if a.stage = Stage.InProgress then
            (a.get_user_from_token).map (fun u => [u])
          else some []) with
    | none => .panicked
    | some canMove =>
      .ok { players := a.players
            can_move := canMove
            winners := a.winner
            stage := a.stage
            payload := Json.obj [("cells".toList,
              Json.arr (cells.map (fun col => Json.arr (col.map Json.str))))] }

end KiloServer

namespace KiloServer

/-! ## Search engine (src/game/search.rs) -/

def LIST_GAME_SUMMARY_COUNT : Nat := 20

/-- GameSummary from src/game/search.rs lines 11-18. -/
structure GameSummary where
  game_id : GameId
  game_type : GameType
  players : List (List Char)
  stage : Stage
  last_updated : Int
deriving DecidableEq, Repr

/-- SortOrder from src/game/search.rs lines 20-25. -/
inductive SortOrder where
  | Asc
  | Desc
deriving DecidableEq, Repr

/-- SortKey from src/game/search.rs lines 27-34. -/
inductive SortKey where
  | GameType
  | Players
  | Stage
  | LastUpdated
deriving DecidableEq, Repr

/-- SearchOptions from src/game/search.rs lines 36-43. -/
structure SearchOptions where
  page : Nat
  sort_order : SortOrder
  sort_key : SortKey
  game_type : Option GameType
  players : Option Nat
  stage : Option Stage
deriving DecidableEq, Repr

namespace SearchEngine

/-- SearchEngine::next_sort_key (src/game/search.rs lines 81-88): the fixed
tie-break ring. -/
def next_sort_key : SortKey → SortKey
  | SortKey.GameType => SortKey.Players
  | SortKey.Players => SortKey.Stage
  | SortKey.Stage => SortKey.LastUpdated
  | SortKey.LastUpdated => SortKey.GameType

/-- One key comparison of the loop body in compare_summaries. -/
def keyCmp (a b : GameSummary) : SortKey → Ordering
  | SortKey.GameType => GameType.cmp a.game_type b.game_type
  | SortKey.Players => compare a.players.length b.players.length
  | SortKey.Stage => Stage.cmp a.stage b.stage
  | SortKey.LastUpdated => compare a.last_updated b.last_updated

/-- The for loop of compare_summaries: up to the given number of
iterations, compare under the current key and advance along the ring while
the comparison is equal; Equal results if the iterations are exhausted. -/
def cmpLoop (a b : GameSummary) : SortKey → Nat → Ordering
  | _, 0 => Ordering.eq
  | k, fuel + 1 =>
    match keyCmp a b k with
    | Ordering.eq => cmpLoop a b (next_sort_key k) fuel
    | o => o

/-- SearchEngine::compare_summaries (src/game/search.rs lines 90-117): four
ring iterations, then the Desc order reverses the comparator result. -/
def compare_summaries (a b : GameSummary) (sort_key : SortKey) (sort_order : SortOrder) :
    Ordering :=
  let ordering := cmpLoop a b sort_key 4
  if sort_order = SortOrder.Asc then ordering else ordering.swap

end SearchEngine

/-- Insertion step of the stable sort: the new element goes in front of the
first resident element it does not compare greater than, so residents that
compare equal keep their relative order (the itertools sorted_by used by
the source is a stable sort). -/
def insertSortedBy (cmp : GameSummary → GameSummary → Ordering) (x : GameSummary) :
    List GameSummary → List GameSummary
  | [] => [x]
  | y :: ys =>
    if cmp x y = Ordering.gt then y :: insertSortedBy cmp x ys else x :: y :: ys

/-- Stable sort by a comparator, modelling Itertools::sorted_by. -/
def sortedBy (cmp : GameSummary → GameSummary → Ordering) : List GameSummary → List GameSummary
  | [] => []
  | x :: xs => insertSortedBy cmp x (sortedBy cmp xs)

/-- SearchEngine::apply (src/game/search.rs lines 48-79), stage by stage in
source order: reject page 0, sort the whole summary sequence, skip
(page - 1) * LIST_GAME_SUMMARY_COUNT entries, apply the three optional
equality filters, and take LIST_GAME_SUMMARY_COUNT entries. -/
def SearchEngine.apply (summaries : List GameSummary) (options : SearchOptions) :
    RunResult (List GameSummary) :=
  if options.page = 0 then .err GameError.InvalidPage
  else
    let skip := (options.page - 1) * LIST_GAME_SUMMARY_COUNT
    let sorted := sortedBy
      (fun a b => SearchEngine.compare_summaries a b options.sort_key options.sort_order)
      summaries
    let afterSkip := sorted.drop skip
    let afterGameType := afterSkip.filter
      (fun s => match options.game_type with
        | none => true
        | some x => decide (s.game_type = x))
    let afterPlayers := afterGameType.filter
      (fun s => match options.players with
        | none => true
        | some x => decide (s.players.length = x))
    let afterStage := afterPlayers.filter
      (fun s => match options.stage with
        | none => true
        | some x => decide (s.stage = x))
    .ok (afterStage.take LIST_GAME_SUMMARY_COUNT)

end KiloServer

namespace KiloServer

/-! ## Session registry (GameManager, src/game/mod.rs)

The DashMap of games is modelled as an association list; each entry's Mutex
is modelled by a locked flag recording whether an in-flight request
currently holds the lock (the GC's try_lock fails exactly on those
entries).  The operations below run while holding the addressed game's
lock, so they act on an entry whose flag state is irrelevant to them and
thread the registry state explicitly. -/

def MAX_USERNAME_LENGTH : Nat := 12

/-- UTF-8 byte length of a username, modelling Rust String::len. -/
def usernameByteLen (s : List Char) : Nat := (s.map Char.utf8Size).sum

/-- Session from src/game/mod.rs lines 189-197. -/
structure Session where
  username : List Char
deriving DecidableEq, Repr

/-- Session::new. -/
def Session.new (username : List Char) : Session := ⟨username⟩

/-- Game from src/game/mod.rs lines 199-203, plus the state of its Mutex. -/
structure Game where
  adapter : Connect4Adapter
  sessions : List (SessionId × Session)
  last_update : Int
  locked : Bool
deriving DecidableEq, Repr

/-- GameManager from src/game/mod.rs lines 205-207. -/
structure GameManager where
  games : List (GameId × Game)
deriving DecidableEq, Repr

/-- Lookup in the concurrent map. -/
def lookupGame : List (GameId × Game) → GameId → Option Game
  | [], _ => none
  | (k, g) :: rest, gid => if k = gid then some g else lookupGame rest gid

/-- In-place replacement of one game's state, as mutation through the
entry's lock guard. -/
def updateGame : List (GameId × Game) → GameId → Game → List (GameId × Game)
  | [], _, _ => []
  | (k, g) :: rest, gid, g2 =>
    if k = gid then (k, g2) :: rest else (k, g) :: updateGame rest gid g2

/-- Lookup in one game's session map. -/
def lookupSession : List (SessionId × Session) → SessionId → Option Session
  | [], _ => none
  | (k, s) :: rest, sid => if k = sid then some s else lookupSession rest sid

/-- The idle TTL, Duration::minutes(5), in the time unit of timestamps. -/
def gcTtl : Int := 5 * 60

/-- GameManager::gc_games (src/game/mod.rs lines 348-356): retain every
entry whose try_lock fails (currently locked), and every entry whose
last_update plus the TTL is at or after now; evict the rest. -/
def GameManager.gc_games (m : GameManager) (now : Int) : GameManager :=
  ⟨m.games.filter (fun kv =>
    if kv.2.locked then true else decide (kv.2.last_update + gcTtl ≥ now))⟩

/-- GameManager::create_game (src/game/mod.rs lines 214-228): run the GC
sweep, then insert a fresh Game under a random id if that id is vacant.
The supplied game_id models one draw of the random id loop; the none result
models a collision, on which Rust redraws and retries. -/
def GameManager.create_game (m : GameManager) (now : Int) (game_id : GameId) :
    GameManager × Option GameId :=
  let m2 := m.gc_games now
  match lookupGame m2.games game_id with
  | some _ => (m2, none)
  | none =>
    (⟨(game_id, { adapter := Connect4Adapter.new game_id, sessions := [],
                  last_update := now, locked := false }) :: m2.games⟩, some game_id)

/-- GameManager::receive_join (src/game/mod.rs lines 230-276), statement by
statement: look up the game (GameNotFound), require stage Waiting
(InvalidGameStage), reject the empty username (TooShort), a username over
MAX_USERNAME_LENGTH bytes (TooLong) and a username already in the game
(AlreadyInGame); then admit the player through the adapter, refresh
last_update and bind a fresh random SessionId.  The supplied session_id
models the value settled on by the random retry loop; now models
Utc::now().  Error cases return the registry with the adapter state exactly
as the source left it. -/
def GameManager.receive_join (m : GameManager) (game_id : GameId) (username : List Char)
    (now : Int) (session_id : SessionId) : GameManager × RunResult SessionId :=
  match lookupGame m.games game_id with
  | none => (m, .err (.GameNotFound game_id))
  | some game =>
    if game.adapter.get_stage ≠ Stage.Waiting then
      (m, .err (.adapter game_id (.InvalidGameStage game.adapter.get_stage)))
    else if username.isEmpty then
      (m, .err (.InvalidUsername username InvalidUsernameReason.TooShort))
    else if usernameByteLen username > MAX_USERNAME_LENGTH then
      (m, .err (.InvalidUsername username InvalidUsernameReason.TooLong))
    else if game.adapter.has_player username then
      (m, .err (.InvalidUsername username (InvalidUsernameReason.AlreadyInGame game_id)))
    else
      match game.adapter.add_player username with
      | (ga2, .panicked) => (⟨updateGame m.games game_id { game with adapter := ga2 }⟩, .panicked)
      | (ga2, .err e) => (⟨updateGame m.games game_id { game with adapter := ga2 }⟩, .err e)
      | (ga2, .ok _) =>
        (⟨updateGame m.games game_id
          { game with adapter := ga2, last_update := now,
                      sessions := game.sessions ++ [(session_id, Session.new username)] }⟩,
         .ok session_id)

/-- GameManager::receive_move (src/game/mod.rs lines 278-297): look up the
game and the session, delegate to the adapter's play_move with the
session's username, and refresh last_update only on success.  Error cases
return the registry with the adapter state exactly as the source left
it. -/
def GameManager.receive_move (m : GameManager) (game_id : GameId) (session_id : SessionId)
    (encoded_move : Json) (now : Int) : GameManager × RunResult Unit :=
  match lookupGame m.games game_id with
  | none => (m, .err (.GameNotFound game_id))
  | some game =>
    match lookupSession game.sessions session_id with
    | none => (m, .err (.SessionNotFound session_id))
    | some sess =>
      match game.adapter.play_move ⟨sess.username, encoded_move⟩ with
      | (ga2, .panicked) =>
        (⟨updateGame m.games game_id { game with adapter := ga2 }⟩, .panicked)
      | (ga2, .err e) =>
        (⟨updateGame m.games game_id { game with adapter := ga2 }⟩, .err e)
      | (ga2, .ok _) =>
        (⟨updateGame m.games game_id { game with adapter := ga2, last_update := now }⟩, .ok ())

/-- GameManager::get_state (src/game/mod.rs lines 299-317): look up the
game, take the adapter's encoded state, and annotate its payload with the
game_type tag; a payload that is not a serde object hits the explicit
panic. -/
def GameManager.get_state (m : GameManager) (game_id : GameId) : RunResult GenericGameState :=
  match lookupGame m.games game_id with
  | none => .err (.GameNotFound game_id)
  | some game =>
    match game.adapter.get_encoded_state with
    | .panicked => .panicked
    | .err e => .err e
    | .ok state =>
      match state.payload with
      | Json.obj fields =>
        .ok { state with
              payload := Json.obj (insertField fields "game_type".toList
                (Json.str "connect_4".toList)) }
      | _ => .panicked

/-- One GameSummary of list_games (src/game/mod.rs lines 321-333); none is
the unwrap panic on a failed or panicking get_encoded_state. -/
def gameSummaryOf (gid : GameId) (g : Game) : Option GameSummary :=
  match g.adapter.get_encoded_state with
  | .ok st => some { game_id := gid, game_type := g.adapter.get_type,
                     players := st.players, stage := st.stage,
                     last_updated := g.last_update }
  | _ => none

/-- The summary sequence handed to the search engine by list_games. -/
def summariesOf : List (GameId × Game) → Option (List GameSummary)
  | [] => some []
  | (gid, g) :: rest =>
    match gameSummaryOf gid g, summariesOf rest with
    | some s, some ss => some (s :: ss)
    | _, _ => none

/-- GameManager::list_games (src/game/mod.rs lines 319-336): build the
summaries (unwrap panics propagate) and hand them to the search engine. -/
def GameManager.list_games (m : GameManager) (options : SearchOptions) :
    RunResult (List GameSummary) :=
  match summariesOf m.games with
  | none => .panicked
  | some sums => SearchEngine.apply sums options

/-- GameManager::subscribe (src/game/mod.rs lines 338-346): look up the
game and subscribe on its adapter's notifier. -/
def GameManager.subscribe (m : GameManager) (game_id : GameId) : RunResult Subscription :=
  match lookupGame m.games game_id with
  | none => .err (.GameNotFound game_id)
  | some game => .ok (game.adapter.notifier.subscribe)

end KiloServer

namespace KiloServer

/-! ## Specification-side combinators for the search claims -/

/-- First non-equal ordering in a list; Equal when every entry is equal. -/
def firstNonEq : List Ordering → Ordering
  | [] => Ordering.eq
  | o :: os =>
    match o with
    | Ordering.eq => firstNonEq os
    | _ => o

/-- The keys visited by the tie-break loop: the given number of keys along
the ring starting from the primary key. -/
def ringKeys (k : SortKey) : Nat → List SortKey
  | 0 => []
  | n + 1 => k :: ringKeys (SearchEngine.next_sort_key k) n

/-- Conjunction of the three optional equality filters of SearchOptions,
in their source order. -/
def matchesFilters (options : SearchOptions) (s : GameSummary) : Bool :=
  (match options.game_type with
    | none => true
    | some x => decide (s.game_type = x)) &&
  ((match options.players with
    | none => true
    | some x => decide (s.players.length = x)) &&
   (match options.stage with
    | none => true
    | some x => decide (s.stage = x)))

/-- Search options with only a page number, for concrete evaluation. -/
def pageOnlyOptions (page : Nat) : SearchOptions :=
  ⟨page, SortOrder.Asc, SortKey.GameType, none, none, none⟩

end KiloServer

namespace KiloServer

/-! ## Concrete fixtures for witnesses and counterexamples -/

/-- A concrete game id. -/
def gid0 : GameId := ⟨[0, 0, 0, 0]⟩

/-- A concrete session id. -/
def sid0 : SessionId := ⟨List.replicate 16 0⟩

/-- A freshly created game record (stage Waiting, no sessions). -/
def waitingGame (gid : GameId) : Game :=
  { adapter := Connect4Adapter.new gid, sessions := [], last_update := 0, locked := false }

/-- A registry holding one freshly created game. -/
def oneGameManager : GameManager := ⟨[(gid0, waitingGame gid0)]⟩

/-- A 7-character username whose UTF-8 encoding is 14 bytes long. -/
def unicodeName : List Char := List.replicate 7 'é'

end KiloServer

namespace KiloServer

/-- A registry holding one idle game whose lock is currently held. -/
def lockedManager : GameManager :=
  ⟨[(gid0, { waitingGame gid0 with locked := true })]⟩

end KiloServer

namespace KiloServer

/-! ## Operation sequences over one adapter (for the stage claims) -/

/-- One adapter-level operation: a join admission or a move. -/
inductive AdapterOp where
  | addPlayer : List Char → AdapterOp
  | playMove : GenericGameMove → AdapterOp

/-- The adapter state after one operation (unchanged when the operation
fails or panics, as the per-game lock serializes each call). -/
def applyOp (a : Connect4Adapter) : AdapterOp → Connect4Adapter
  | AdapterOp.addPlayer u => (a.add_player u).1
  | AdapterOp.playMove mv => (a.play_move mv).1

/-- The adapter state after a sequence of operations. -/
def applyOps (a : Connect4Adapter) : List AdapterOp → Connect4Adapter
  | [] => a
  | op :: ops => applyOps (applyOp a op) ops

/-- A full two-player adapter already moved to the Ended stage. -/
def endedAdapter : Connect4Adapter :=
  { Connect4Adapter.new gid0 with players := [['a'], ['b']], stage := Stage.Ended }

/-- A registry holding one ended game. -/
def endedManager : GameManager :=
  ⟨[(gid0, { adapter := endedAdapter, sessions := [], last_update := 0, locked := false })]⟩

end KiloServer

namespace KiloServer

/-! ## Reachability invariant of one adapter and of the registry -/

/-- Invariant of every reachable Connect4Adapter state: the stage is
Waiting exactly while a seat is open, the player list never exceeds the
capacity, the board is empty until the game is full, and the board always
holds COL_SIZE columns.  It holds for a fresh adapter and is preserved by
every operation; it is what makes the assert and unwrap branches
unreachable. -/
def AdapterInv (a : Connect4Adapter) : Prop :=
  (a.stage = Stage.Waiting ↔ a.players.length < NUM_PLAYERS) ∧
  a.players.length ≤ NUM_PLAYERS ∧
  (a.players.length < NUM_PLAYERS → ∀ col ∈ a.game.board, col = []) ∧
  a.game.board.length = COL_SIZE

/-- Invariant of the registry: every game's adapter satisfies the adapter
invariant. -/
def ManagerInv (m : GameManager) : Prop :=
  ∀ kv ∈ m.games, AdapterInv kv.2.adapter

end KiloServer
namespace KiloServer

/-! ## Base32 codec lemmas -/

theorem bitsToNat_foldl_lt (l : List Bool) (acc : Nat) :
    l.foldl (fun n b => 2 * n + b.toNat) acc < (acc + 1) * 2 ^ l.length := by
  induction l generalizing acc with
  | nil => simp [Nat.lt_succ_self acc]
  | cons b t ih =>
    simp only [List.foldl_cons, List.length_cons]
    have hb : b.toNat ≤ 1 := by cases b <;> simp
    have h1 := ih (2 * acc + b.toNat)
    have h2 : (2 * acc + b.toNat + 1) * 2 ^ t.length ≤ (acc + 1) * 2 ^ (t.length + 1) := by
      rw [pow_succ]
      calc (2 * acc + b.toNat + 1) * 2 ^ t.length
          ≤ ((acc + 1) * 2) * 2 ^ t.length := Nat.mul_le_mul_right _ (by omega)
        _ = (acc + 1) * (2 ^ t.length * 2) := by ring
    exact lt_of_lt_of_le h1 h2

theorem bitsToNat_lt (l : List Bool) : bitsToNat l < 2 ^ l.length := by
  simpa [bitsToNat] using bitsToNat_foldl_lt l 0

theorem bitsToNat_byteToBits (b : Nat) (hb : b < 256) : bitsToNat (byteToBits b) = b := by
  revert b
  decide

theorem valToBits_bitsToNat (c : List Bool) (h : c.length = 5) : valToBits (bitsToNat c) = c := by
  match c, h with
  | [a, b, d, e, f], _ => cases a <;> cases b <;> cases d <;> cases e <;> cases f <;> decide

theorem decodeVal_encodeVal (v : Nat) (h : v < 32) : decodeVal (encodeVal v) = some v := by
  revert v
  decide

theorem bytesToBits_cons (b : Nat) (t : List Nat) :
    bytesToBits (b :: t) = byteToBits b ++ bytesToBits t := by
  simp [bytesToBits]

theorem bytesToBits_length (bs : List Nat) : (bytesToBits bs).length = 8 * bs.length := by
  induction bs with
  | nil => rfl
  | cons b t ih =>
    rw [bytesToBits_cons]
    simp only [List.length_append, List.length_cons, ih]
    simp [byteToBits]
    omega

theorem chunksOf5_flatten (l : List Bool) (h : l.length % 5 = 0) : (chunksOf5 l).flatten = l := by
  induction l using chunksOf5.induct with
  | case1 => rfl
  | case2 b0 b1 b2 b3 b4 rest ih =>
    simp only [chunksOf5, List.flatten_cons]
    simp only [List.length_cons] at h
    simp [ih (by omega)]
  | case3 l h1 h2 =>
    exfalso
    rcases l with _ | ⟨a, _ | ⟨b, _ | ⟨c, _ | ⟨d, _ | ⟨e, rest⟩⟩⟩⟩⟩
    · exact h1 rfl
    · simp [List.length] at h
    · simp [List.length] at h
    · simp [List.length] at h
    · simp [List.length] at h
    · exact h2 a b c d e rest rfl

theorem chunksOf5_mem_length (l : List Bool) (h : l.length % 5 = 0) :
    ∀ c ∈ chunksOf5 l, c.length = 5 := by
  induction l using chunksOf5.induct with
  | case1 => intro c hc; simp [chunksOf5] at hc
  | case2 b0 b1 b2 b3 b4 rest ih =>
    intro c hc
    simp only [List.length_cons] at h
    simp only [chunksOf5, List.mem_cons] at hc
    rcases hc with hc | hc
    · simp [hc]
    · exact ih (by omega) c hc
  | case3 l h1 h2 =>
    exfalso
    rcases l with _ | ⟨a, _ | ⟨b, _ | ⟨c, _ | ⟨d, _ | ⟨e, rest⟩⟩⟩⟩⟩
    · exact h1 rfl
    · simp [List.length] at h
    · simp [List.length] at h
    · simp [List.length] at h
    · simp [List.length] at h
    · exact h2 a b c d e rest rfl

theorem chunksOf5_length (l : List Bool) (h : l.length % 5 = 0) :
    (chunksOf5 l).length = l.length / 5 := by
  induction l using chunksOf5.induct with
  | case1 => rfl
  | case2 b0 b1 b2 b3 b4 rest ih =>
    simp only [List.length_cons] at h
    simp only [chunksOf5, List.length_cons, ih (by omega)]
    omega
  | case3 l h1 h2 =>
    exfalso
    rcases l with _ | ⟨a, _ | ⟨b, _ | ⟨c, _ | ⟨d, _ | ⟨e, rest⟩⟩⟩⟩⟩
    · exact h1 rfl
    · simp [List.length] at h
    · simp [List.length] at h
    · simp [List.length] at h
    · simp [List.length] at h
    · exact h2 a b c d e rest rfl

theorem zeroPad_length (n : Nat) (l : List Bool) :
    (zeroPad n l).length = l.length + (n - l.length % n) % n := by
  simp [zeroPad]

theorem zeroPad5_length_mod (l : List Bool) : (zeroPad 5 l).length % 5 = 0 := by
  rw [zeroPad_length]
  omega

theorem zeroPad8_length_mod (l : List Bool) : (zeroPad 8 l).length % 8 = 0 := by
  rw [zeroPad_length]
  omega

theorem decodeVals_map_encodeVal (vs : List Nat) (h : ∀ v ∈ vs, v < 32) :
    decodeVals (vs.map encodeVal) = some vs := by
  induction vs with
  | nil => rfl
  | cons v t ih =>
    have hv : decodeVal (encodeVal v) = some v := decodeVal_encodeVal v (h v (by simp))
    have ht : decodeVals (t.map encodeVal) = some t := ih (fun x hx => h x (by simp [hx]))
    simp [decodeVals, hv, ht]

theorem chunksOf8_append_byte (b : Nat) (l : List Bool) :
    chunksOf8 (byteToBits b ++ l) = byteToBits b :: chunksOf8 l := rfl

theorem chunksOf8_bytesToBits (bs : List Nat) (r : List Bool) :
    chunksOf8 (bytesToBits bs ++ r) = bs.map byteToBits ++ chunksOf8 r := by
  induction bs with
  | nil => simp [bytesToBits]
  | cons b t ih =>
    rw [bytesToBits_cons, List.append_assoc, chunksOf8_append_byte, ih]
    simp

end KiloServer

namespace KiloServer

theorem chunksOf8_rep8 : chunksOf8 (List.replicate 8 false) = [List.replicate 8 false] := by
  decide

theorem bitsToNat_rep8 : bitsToNat (List.replicate 8 false) = 0 := by
  decide

/-- Round trip of the modelled base32 codec on arbitrary byte sequences. -/
theorem base32_round_trip (bs : List Nat) (hb : ∀ b ∈ bs, b < 256) :
    base32_decode (base32_encode bs) = some bs := by
  have hbits := bytesToBits_length bs
  have hpad5 : (zeroPad 5 (bytesToBits bs)).length % 5 = 0 := zeroPad5_length_mod _
  have hmem : ∀ c ∈ chunksOf5 (zeroPad 5 (bytesToBits bs)), c.length = 5 :=
    chunksOf5_mem_length _ hpad5
  have hflat : (chunksOf5 (zeroPad 5 (bytesToBits bs))).flatten = zeroPad 5 (bytesToBits bs) :=
    chunksOf5_flatten _ hpad5
  have hclen : (chunksOf5 (zeroPad 5 (bytesToBits bs))).length =
      (zeroPad 5 (bytesToBits bs)).length / 5 := chunksOf5_length _ hpad5
  have henc : base32_encode bs =
      ((chunksOf5 (zeroPad 5 (bytesToBits bs))).map bitsToNat).map encodeVal := by
    rw [base32_encode, List.map_map]
    rfl
  have hvals : decodeVals (base32_encode bs) =
      some ((chunksOf5 (zeroPad 5 (bytesToBits bs))).map bitsToNat) := by
    rw [henc]
    apply decodeVals_map_encodeVal
    intro v hv
    rcases List.mem_map.mp hv with ⟨c, hc, rfl⟩
    have h32 := bitsToNat_lt c
    rw [hmem c hc] at h32
    exact lt_of_lt_of_eq h32 (by norm_num)
  have hback : ((((chunksOf5 (zeroPad 5 (bytesToBits bs))).map bitsToNat).map valToBits)).flatten =
      zeroPad 5 (bytesToBits bs) := by
    rw [List.map_map]
    have hcongr : (chunksOf5 (zeroPad 5 (bytesToBits bs))).map (valToBits ∘ bitsToNat) =
        (chunksOf5 (zeroPad 5 (bytesToBits bs))).map id :=
      List.map_congr_left (fun c hc => valToBits_bitsToNat c (hmem c hc))
    rw [hcongr, List.map_id, hflat]
  have hlen5 : (zeroPad 5 (bytesToBits bs)).length =
      8 * bs.length + (5 - (8 * bs.length) % 5) % 5 := by
    rw [zeroPad_length, hbits]
  have hencLen : (base32_encode bs).length = (zeroPad 5 (bytesToBits bs)).length / 5 := by
    rw [henc]
    simp only [List.length_map]
    exact hclen
  -- the zero-fill appended by the two padding passes is 0 or 8 bits long
  have hz8 : (5 - (8 * bs.length) % 5) % 5 +
      (8 - (zeroPad 5 (bytesToBits bs)).length % 8) % 8 = 0 ∨
      (5 - (8 * bs.length) % 5) % 5 +
      (8 - (zeroPad 5 (bytesToBits bs)).length % 8) % 8 = 8 := by
    rw [hlen5]
    omega
  have hsplit : zeroPad 8 (zeroPad 5 (bytesToBits bs)) =
      bytesToBits bs ++ List.replicate ((5 - (8 * bs.length) % 5) % 5 +
        (8 - (zeroPad 5 (bytesToBits bs)).length % 8) % 8) false := by
    rw [zeroPad, zeroPad, List.append_assoc, ← List.replicate_add, hbits]
  have htake : (base32_encode bs).length * 5 / 8 = bs.length := by
    rw [hencLen, hlen5]
    omega
  rw [base32_decode, hvals]
  simp only [hback, htake]
  rcases hz8 with hz | hz
  · rw [hsplit, hz]
    simp only [List.replicate_zero, List.append_nil]
    have h0 : chunksOf8 (bytesToBits bs) = bs.map byteToBits := by
      have h1 := chunksOf8_bytesToBits bs []
      simpa [chunksOf8] using h1
    rw [h0]
    simp only [List.map_map]
    have hcongr : bs.map (bitsToNat ∘ byteToBits) = bs.map id :=
      List.map_congr_left (fun b hbb => bitsToNat_byteToBits b (hb b hbb))
    rw [hcongr, List.map_id, List.take_length]
  · rw [hsplit, hz]
    rw [chunksOf8_bytesToBits bs (List.replicate 8 false), chunksOf8_rep8]
    simp only [List.map_append, List.map_map, List.map_cons, List.map_nil, bitsToNat_rep8]
    have hcongr : bs.map (bitsToNat ∘ byteToBits) = bs.map id :=
      List.map_congr_left (fun b hbb => bitsToNat_byteToBits b (hb b hbb))
    rw [hcongr, List.map_id]
    rw [List.take_left]

end KiloServer

namespace KiloServer

/-! ## Claim theorems: change notifier (C1, C2) -/

/-- C1 (code_bug evaluation): the claim says each send broadcasts the new
(post-increment) clock value and that wait(C) returns a value strictly
greater than C once a send occurred.  Evaluating the embedded code at the
concrete failing input shows otherwise: a fresh notifier has clock 1, a
subscription taken there snapshots C = 1, and one subsequent send moves the
clock to 2 but broadcasts the pre-increment value 1 (fetch_add returns the
old value), so wait(1) receives 1 and returns Ok 1, which is not greater
than the snapshot C = 1. -/
theorem send_broadcasts_pre_increment_clock :
    (Notifier.new.send).2 = 1 ∧
    (Notifier.new.send).1.clock = 2 ∧
    (Notifier.new.subscribe).clock = 1 ∧
    Subscription.wait (sendsObserved (Notifier.new, Notifier.new.subscribe) 1).2 1 =
      WaitResult.ok 1 :=
  ⟨rfl, rfl, rfl, rfl⟩

/-- C2: result semantics of Subscription.wait(since).  If since is below
the subscription's snapshot clock, wait returns the snapshot immediately.
If no broadcast is pending and the channel is open (the recv suspends until
the 5-second timeout elapses), wait returns the last known clock value as a
success.  If no broadcast is pending and the channel is closed (the
broadcast source was dropped), wait returns the internal notification
error. -/
theorem wait_result_semantics (s : Subscription) (since : Nat) :
    (since < s.clock → s.wait since = WaitResult.ok s.clock) ∧
    (¬ since < s.clock → s.pending = [] → s.closed = false →
      s.wait since = WaitResult.ok s.clock) ∧
    (¬ since < s.clock → s.pending = [] → s.closed = true →
      s.wait since = WaitResult.notifierError) := by
  refine ⟨fun h => ?_, fun h hp hc => ?_, fun h hp hc => ?_⟩
  · simp [Subscription.wait, h]
  · simp [Subscription.wait, h, hp, hc]
  · simp [Subscription.wait, h, hp, hc]

/-- Witness for C2 at concrete inputs: a subscription snapshotted at clock
2 answers wait(1) with 2 immediately; with an empty queue it answers
wait(5) with its snapshot 2 when open, and with the notification error when
closed. -/
theorem wait_result_semantics_witness :
    Subscription.wait ⟨2, [], false⟩ 1 = WaitResult.ok 2 ∧
    Subscription.wait ⟨2, [], false⟩ 5 = WaitResult.ok 2 ∧
    Subscription.wait ⟨2, [], true⟩ 5 = WaitResult.notifierError :=
  ⟨(wait_result_semantics ⟨2, [], false⟩ 1).1 (by decide),
   (wait_result_semantics ⟨2, [], false⟩ 5).2.1 (by decide) rfl rfl,
   (wait_result_semantics ⟨2, [], true⟩ 5).2.2 (by decide) rfl rfl⟩

end KiloServer

namespace KiloServer

/-! ## Claim theorems: search engine (C3, C4) -/

theorem cmpLoop_firstNonEq (a b : GameSummary) :
    ∀ (fuel : Nat) (k : SortKey),
      SearchEngine.cmpLoop a b k fuel =
        firstNonEq ((ringKeys k fuel).map (SearchEngine.keyCmp a b)) := by
  intro fuel
  induction fuel with
  | zero => intro k; rfl
  | succ n ih =>
    intro k
    simp only [SearchEngine.cmpLoop, ringKeys, List.map_cons, firstNonEq]
    cases h : SearchEngine.keyCmp a b k <;> simp [h, ih]

/-- C4: the comparator walks the fixed ring of sort keys starting from the
primary key, returning the first non-equal comparison among the four keys
and Equal when all four agree; the ring closes after four steps; and the
Desc result is exactly the reverse of the Asc result for the same pair, so
the tie-break chain is identical under both orders (the comparator is a
pure function of its arguments, so the output is deterministic for fixed
inputs). -/
theorem compare_summaries_ring_and_reversal (a b : GameSummary) (k : SortKey) :
    SearchEngine.compare_summaries a b k SortOrder.Asc =
      firstNonEq
        [SearchEngine.keyCmp a b k,
         SearchEngine.keyCmp a b (SearchEngine.next_sort_key k),
         SearchEngine.keyCmp a b
           (SearchEngine.next_sort_key (SearchEngine.next_sort_key k)),
         SearchEngine.keyCmp a b
           (SearchEngine.next_sort_key
             (SearchEngine.next_sort_key (SearchEngine.next_sort_key k)))] ∧
    SearchEngine.compare_summaries a b k SortOrder.Desc =
      (SearchEngine.compare_summaries a b k SortOrder.Asc).swap ∧
    SearchEngine.next_sort_key
      (SearchEngine.next_sort_key
        (SearchEngine.next_sort_key (SearchEngine.next_sort_key k))) = k := by
  refine ⟨?_, ?_, ?_⟩
  · have h4 : ringKeys k 4 =
        [k, SearchEngine.next_sort_key k,
         SearchEngine.next_sort_key (SearchEngine.next_sort_key k),
         SearchEngine.next_sort_key
           (SearchEngine.next_sort_key (SearchEngine.next_sort_key k))] := rfl
    have h := cmpLoop_firstNonEq a b 4 k
    rw [h4] at h
    simpa [SearchEngine.compare_summaries] using h
  · simp [SearchEngine.compare_summaries]
  · cases k <;> rfl

theorem filter_filter_filter {α : Type} (p q r : α → Bool) (l : List α) :
    ((l.filter p).filter q).filter r = l.filter (fun x => p x && (q x && r x)) := by
  rw [List.filter_filter, List.filter_filter]
  exact List.filter_congr (fun x _ => by
    cases hp : p x <;> cases hq : q x <;> cases hr : r x <;> simp [hp, hq, hr])

/-- C3: the search pipeline rejects page 0 with InvalidPage; otherwise the
result is obtained by sorting the whole summary sequence, dropping
(page - 1) * 20 entries of the unfiltered sorted sequence, then applying
the equality filters, then taking at most 20 entries — so page boundaries
are computed against the unfiltered sorted sequence (PAGE_SIZE is 20). -/
theorem search_pipeline_order (summaries : List GameSummary) (options : SearchOptions) :
    LIST_GAME_SUMMARY_COUNT = 20 ∧
    (options.page = 0 →
      SearchEngine.apply summaries options = .err GameError.InvalidPage) ∧
    (options.page ≠ 0 →
      SearchEngine.apply summaries options =
        .ok ((((sortedBy
            (fun x y =>
              SearchEngine.compare_summaries x y options.sort_key options.sort_order)
            summaries).drop
              ((options.page - 1) * 20)).filter (matchesFilters options)).take 20)) := by
  refine ⟨rfl, fun h => by simp [SearchEngine.apply, h], fun h => ?_⟩
  simp only [SearchEngine.apply, if_neg h]
  rw [filter_filter_filter]
  rfl

/-- Witness for C3: on the empty summary list, page 0 is rejected and page
1 evaluates through the sort, skip, filter, take pipeline. -/
theorem search_pipeline_order_witness :
    SearchEngine.apply [] (pageOnlyOptions 0) = .err GameError.InvalidPage ∧
    SearchEngine.apply [] (pageOnlyOptions 1) =
      .ok ((((sortedBy
          (fun x y =>
            SearchEngine.compare_summaries x y (pageOnlyOptions 1).sort_key
              (pageOnlyOptions 1).sort_order)
          []).drop
            (((pageOnlyOptions 1).page - 1) * 20)).filter
              (matchesFilters (pageOnlyOptions 1))).take 20) :=
  ⟨(search_pipeline_order [] (pageOnlyOptions 0)).2.1 rfl,
   (search_pipeline_order [] (pageOnlyOptions 1)).2.2 (by decide)⟩

end KiloServer

namespace KiloServer

/-! ## Adapter and registry helper lemmas -/

theorem add_player_not_err (a : Connect4Adapter) (u : List Char) (e : GameError) :
    (a.add_player u).2 ≠ RunResult.err e := by
  simp only [Connect4Adapter.add_player]
  split
  · split <;> simp
  · simp

theorem moves_state_or_ok (g : Connect4) (c : Nat) :
    (g.moves c).1 = g ∨ (g.moves c).2 = RunResult.ok () := by
  simp only [Connect4.moves, Connect4.insert_move_if_legal]
  split
  · exact Or.inl rfl
  · split
    · exact Or.inl rfl
    · split
      · exact Or.inl rfl
      · exact Or.inr rfl

theorem moves_not_panicked (g : Connect4) (c : Nat) :
    (g.moves c).2 ≠ RunResult.panicked := by
  simp only [Connect4.moves, Connect4.insert_move_if_legal]
  split
  · simp
  · split
    · simp
    · split <;> simp

theorem play_move_state_or_ok (a : Connect4Adapter) (mv : GenericGameMove) :
    (a.play_move mv).1 = a ∨ (a.play_move mv).2 = RunResult.ok () := by
  simp only [Connect4Adapter.play_move]
  split
  · exact Or.inl rfl
  · split
    · exact Or.inl rfl
    · split
      · exact Or.inl rfl
      · split
        · exact Or.inl rfl
        · split
          · exact Or.inl rfl
          · split
            · next g1 e heq =>
              left
              rcases moves_state_or_ok a.game ‹Nat› with h1 | h2
              · rw [heq] at h1
                simp at h1
                rw [h1]
              · rw [heq] at h2
                simp at h2
            · next g1 heq =>
              exfalso
              exact moves_not_panicked a.game _ (by rw [heq])
            · split <;> exact Or.inr rfl

theorem updateGame_self (l : List (GameId × Game)) (gid : GameId) (g : Game) :
    lookupGame l gid = some g → updateGame l gid g = l := by
  induction l with
  | nil => intro h; cases h
  | cons kv rest ih =>
    rcases kv with ⟨k, g0⟩
    simp only [lookupGame, updateGame]
    split
    · intro h
      injection h with h
      rw [h]
    · intro h
      rw [ih h]

theorem lookupGame_updateGame (l : List (GameId × Game)) (gid : GameId) (g g2 : Game) :
    lookupGame l gid = some g →
    lookupGame (updateGame l gid g2) gid = some g2 := by
  induction l with
  | nil => intro h; cases h
  | cons kv rest ih =>
    rcases kv with ⟨k, g0⟩
    intro h
    by_cases hk : k = gid
    · simp [updateGame, lookupGame, hk]
    · simp only [lookupGame, if_neg hk] at h
      simp only [updateGame, if_neg hk, lookupGame]
      exact ih h

theorem lookupSession_append_fresh (l : List (SessionId × Session)) (sid : SessionId)
    (s : Session) :
    lookupSession l sid = none →
    lookupSession (l ++ [(sid, s)]) sid = some s := by
  induction l with
  | nil => intro _; simp [lookupSession]
  | cons kv rest ih =>
    rcases kv with ⟨k, s0⟩
    simp only [lookupSession, List.cons_append]
    split
    · intro h; cases h
    · exact ih

end KiloServer

namespace KiloServer

/-! ## Claim theorems: join taxonomy and error atomicity (C5, C10) -/

/-- C10: whenever receive_join or receive_move returns a typed error — for
any reason, including an error raised by the adapter's add_player or
play_move — the addressed game's registry state is unchanged: the whole
games map, and with it the game's sessions map and last_update timestamp,
keeps its previous value. -/
theorem registry_error_atomicity (m : GameManager) (game_id : GameId) (u : List Char)
    (now : Int) (sid : SessionId) (mv : Json) (e e2 : GameError) :
    ((m.receive_join game_id u now sid).2 = RunResult.err e →
      (m.receive_join game_id u now sid).1 = m) ∧
    ((m.receive_move game_id sid mv now).2 = RunResult.err e2 →
      (m.receive_move game_id sid mv now).1 = m) := by
  constructor
  · simp only [GameManager.receive_join]
    split
    · intro _; rfl
    · next game heq =>
      split
      · intro _; rfl
      · split
        · intro _; rfl
        · split
          · intro _; rfl
          · split
            · intro _; rfl
            · split
              · intro h; cases h
              · next ga2 e3 hadd =>
                exfalso
                exact add_player_not_err game.adapter u e3 (by rw [hadd])
              · intro h; cases h
  · simp only [GameManager.receive_move]
    split
    · intro _; rfl
    · next game heq =>
      split
      · intro _; rfl
      · next sess hsess =>
        split
        · intro h; cases h
        · next ga2 e3 hpm =>
          intro _
          have hst := play_move_state_or_ok game.adapter ⟨sess.username, mv⟩
          rcases hst with h1 | h2
          · rw [hpm] at h1
            simp at h1
            subst h1
            show GameManager.mk (updateGame m.games game_id game) = m
            rw [updateGame_self m.games game_id game heq]
          · rw [hpm] at h2
            cases h2
        · intro h; cases h

/-- Witness for C10: on the empty registry both operations fail with
GameNotFound and leave the registry unchanged. -/
theorem registry_error_atomicity_witness :
    (GameManager.receive_join ⟨[]⟩ gid0 ['a'] 0 sid0).1 = ⟨[]⟩ ∧
    (GameManager.receive_move ⟨[]⟩ gid0 sid0 Json.null 0).1 = ⟨[]⟩ :=
  ⟨(registry_error_atomicity ⟨[]⟩ gid0 ['a'] 0 sid0 Json.null
      (.GameNotFound gid0) (.GameNotFound gid0)).1 rfl,
   (registry_error_atomicity ⟨[]⟩ gid0 ['a'] 0 sid0 Json.null
      (.GameNotFound gid0) (.GameNotFound gid0)).2 rfl⟩

end KiloServer


namespace KiloServer

/-- Reduction of receive_join on the success path: with the game present in
Waiting stage, a valid fresh username, an open seat and a fresh session id
candidate, the join admits the player, refreshes last_update and binds the
session. -/
theorem receive_join_ok_run (m : GameManager) (game_id : GameId) (u : List Char)
    (now : Int) (sid : SessionId) (g : Game)
    (hg : lookupGame m.games game_id = some g)
    (hstage : g.adapter.stage = Stage.Waiting)
    (hu : u.isEmpty = false)
    (hlen : ¬ usernameByteLen u > MAX_USERNAME_LENGTH)
    (hhas : g.adapter.has_player u = false)
    (hcap : g.adapter.players.length < NUM_PLAYERS) :
    m.receive_join game_id u now sid =
      (⟨updateGame m.games game_id
        { g with adapter := (g.adapter.add_player u).1, last_update := now,
                 sessions := g.sessions ++ [(sid, Session.new u)] }⟩, RunResult.ok sid) := by
  have hadd : g.adapter.add_player u = ((g.adapter.add_player u).1, RunResult.ok ()) := by
    rw [Connect4Adapter.add_player, if_pos hcap, if_pos hstage]
  simp only [GameManager.receive_join, hg]
  rw [if_neg (by simp [Connect4Adapter.get_stage, hstage])]
  rw [hu]
  simp only [Bool.false_eq_true, if_false]
  rw [if_neg hlen, hhas]
  simp only [Bool.false_eq_true, if_false]
  rw [hadd]

end KiloServer

namespace KiloServer

/-! ## Claim theorems: receive_join taxonomy (C5) -/

/-- C5 (counterexample to the claim as stated): a 7-character username —
not longer than 12 characters, non-empty, not yet in the game, submitted to
a present game in Waiting stage with an open seat and a fresh session id —
is rejected with InvalidUsername(TooLong), because the source compares
String::len, the UTF-8 byte length (here 14), against the maximum of 12;
the claim as stated requires this join to return a fresh SessionId. -/
theorem receive_join_charlen_counterexample :
    unicodeName.length = 7 ∧
    unicodeName ≠ [] ∧
    (Connect4Adapter.new gid0).has_player unicodeName = false ∧
    (Connect4Adapter.new gid0).get_stage = Stage.Waiting ∧
    (GameManager.receive_join oneGameManager gid0 unicodeName 5 sid0).2 =
      RunResult.err (.InvalidUsername unicodeName InvalidUsernameReason.TooLong) := by
  refine ⟨rfl, by decide, rfl, rfl, by decide⟩

/-- C5 (amended): receive_join failure taxonomy with the length bound read
as the UTF-8 byte length of the username (Rust String::len) rather than its
character count.  GameNotFound when the game is absent from the live map;
otherwise InvalidGameStage unless the adapter's stage is Waiting; then
TooShort for the empty username, TooLong when the UTF-8 byte length exceeds
12, AlreadyInGame for a username already bound in that game (a second join
with the same username); otherwise the join returns a fresh SessionId now
bound in the game (the open-seat hypothesis is the adapter invariant that a
Waiting connect-4 game is below capacity). -/
theorem receive_join_failure_taxonomy (m : GameManager) (game_id : GameId)
    (u : List Char) (now : Int) (sid : SessionId) :
    (lookupGame m.games game_id = none →
      (m.receive_join game_id u now sid).2 = RunResult.err (.GameNotFound game_id)) ∧
    (∀ g, lookupGame m.games game_id = some g →
      g.adapter.get_stage ≠ Stage.Waiting →
      (m.receive_join game_id u now sid).2 =
        RunResult.err (.adapter game_id (.InvalidGameStage g.adapter.get_stage))) ∧
    (∀ g, lookupGame m.games game_id = some g →
      g.adapter.get_stage = Stage.Waiting → u = [] →
      (m.receive_join game_id u now sid).2 =
        RunResult.err (.InvalidUsername u InvalidUsernameReason.TooShort)) ∧
    (∀ g, lookupGame m.games game_id = some g →
      g.adapter.get_stage = Stage.Waiting → u ≠ [] →
      usernameByteLen u > MAX_USERNAME_LENGTH →
      (m.receive_join game_id u now sid).2 =
        RunResult.err (.InvalidUsername u InvalidUsernameReason.TooLong)) ∧
    (∀ g, lookupGame m.games game_id = some g →
      g.adapter.get_stage = Stage.Waiting → u ≠ [] →
      usernameByteLen u ≤ MAX_USERNAME_LENGTH → g.adapter.has_player u = true →
      (m.receive_join game_id u now sid).2 =
        RunResult.err (.InvalidUsername u (InvalidUsernameReason.AlreadyInGame game_id))) ∧
    (∀ g, lookupGame m.games game_id = some g →
      g.adapter.get_stage = Stage.Waiting → u ≠ [] →
      usernameByteLen u ≤ MAX_USERNAME_LENGTH → g.adapter.has_player u = false →
      g.adapter.players.length < NUM_PLAYERS →
      lookupSession g.sessions sid = none →
      (m.receive_join game_id u now sid).2 = RunResult.ok sid ∧
      (∃ g2, lookupGame (m.receive_join game_id u now sid).1.games game_id = some g2 ∧
        lookupSession g2.sessions sid = some (Session.new u))) := by
  have hempty : ∀ v : List Char, v ≠ [] → v.isEmpty = false := by
    intro v hv
    cases v
    · exact absurd rfl hv
    · rfl
  refine ⟨?_, ?_, ?_, ?_, ?_, ?_⟩
  · intro h
    simp [GameManager.receive_join, h]
  · intro g hg hstage
    simp [GameManager.receive_join, hg, hstage]
  · intro g hg hstage hu
    subst hu
    have hstage2 : g.adapter.stage = Stage.Waiting := hstage
    simp [GameManager.receive_join, hg, Connect4Adapter.get_stage, hstage2, List.isEmpty]
  · intro g hg hstage hu hlen
    have hstage2 : g.adapter.stage = Stage.Waiting := hstage
    simp only [GameManager.receive_join, hg]
    rw [if_neg (by simp [Connect4Adapter.get_stage, hstage2])]
    rw [hempty u hu]
    simp only [Bool.false_eq_true, if_false]
    rw [if_pos hlen]
  · intro g hg hstage hu hlen hhas
    have hstage2 : g.adapter.stage = Stage.Waiting := hstage
    simp only [GameManager.receive_join, hg]
    rw [if_neg (by simp [Connect4Adapter.get_stage, hstage2])]
    rw [hempty u hu]
    simp only [Bool.false_eq_true, if_false]
    rw [if_neg (Nat.not_lt.mpr hlen), hhas]
    simp
  · intro g hg hstage hu hlen hhas hcap hfresh
    have hrun := receive_join_ok_run m game_id u now sid g hg hstage (hempty u hu)
      (Nat.not_lt.mpr hlen) hhas hcap
    rw [hrun]
    refine ⟨rfl, ⟨_, lookupGame_updateGame m.games game_id g _ hg, ?_⟩⟩
    exact lookupSession_append_fresh g.sessions sid (Session.new u) hfresh

/-- Witness for the amended C5: on a registry holding one fresh game, the
absent id is rejected with GameNotFound and a valid join returns the fresh
session id. -/
theorem receive_join_failure_taxonomy_witness :
    (GameManager.receive_join ⟨[]⟩ gid0 ['a'] 0 sid0).2 =
      RunResult.err (.GameNotFound gid0) ∧
    (GameManager.receive_join oneGameManager gid0 ['a'] 0 sid0).2 = RunResult.ok sid0 :=
  ⟨(receive_join_failure_taxonomy ⟨[]⟩ gid0 ['a'] 0 sid0).1 rfl,
   ((receive_join_failure_taxonomy oneGameManager gid0 ['a'] 0 sid0).2.2.2.2.2
      (waitingGame gid0) rfl rfl (by decide) (by decide) rfl (by decide) rfl).1⟩

end KiloServer

namespace KiloServer

/-! ## Claim theorems: garbage collection (C6) -/

theorem lookupGame_eq_none_of_not_mem (l : List (GameId × Game)) (gid : GameId)
    (h : gid ∉ l.map Prod.fst) : lookupGame l gid = none := by
  induction l with
  | nil => rfl
  | cons kv rest ih =>
    rcases kv with ⟨k, g0⟩
    simp only [List.map_cons, List.mem_cons] at h
    push_neg at h
    obtain ⟨h1, h2⟩ := h
    simp only [lookupGame]
    rw [if_neg (fun hk : k = gid => h1 hk.symm)]
    exact ih h2

theorem mem_keys_of_mem_keys_filter (l : List (GameId × Game))
    (p : GameId × Game → Bool) (gid : GameId) :
    gid ∈ (l.filter p).map Prod.fst → gid ∈ l.map Prod.fst := by
  intro h
  rcases List.mem_map.mp h with ⟨kv, hkv, rfl⟩
  exact List.mem_map.mpr ⟨kv, List.mem_of_mem_filter hkv, rfl⟩

theorem lookupGame_filter (l : List (GameId × Game)) (p : GameId × Game → Bool)
    (gid : GameId) (hnd : (l.map Prod.fst).Nodup) (g : Game)
    (hg : lookupGame l gid = some g) :
    lookupGame (l.filter p) gid = (if p (gid, g) = true then some g else none) := by
  induction l with
  | nil => cases hg
  | cons kv rest ih =>
    rcases kv with ⟨k, g0⟩
    simp only [List.map_cons, List.nodup_cons] at hnd
    by_cases hk : k = gid
    · subst hk
      simp only [lookupGame, if_pos rfl] at hg
      injection hg with hg
      rw [← hg]
      simp only [List.filter_cons]
      by_cases hp : p (k, g0) = true
      · simp only [hp, if_true, lookupGame, if_pos rfl]
      · simp only [hp, Bool.false_eq_true, if_false]
        exact lookupGame_eq_none_of_not_mem _ k
          (fun hmem => hnd.1 (mem_keys_of_mem_keys_filter rest p k hmem))
    · simp only [lookupGame, if_neg hk] at hg
      simp only [List.filter_cons]
      by_cases hp : p (k, g0) = true
      · simp only [hp, if_true, lookupGame, if_neg hk]
        exact ih hnd.2 hg
      · simp only [hp, Bool.false_eq_true, if_false]
        exact ih hnd.2 hg

/-- C6: the GC sweep retains exactly the games that are locked (the
non-blocking trylock fails) or within the 5-minute TTL, and evicts the
rest; lookups against an absent id make receive_join, receive_move,
get_state and subscribe fail with GameNotFound; and create_game runs the
sweep first, inserting the fresh game on top of the swept map. -/
theorem gc_sweep (m : GameManager) (now : Int) (gid : GameId)
    (hnd : (m.games.map Prod.fst).Nodup) :
    (∀ g, lookupGame m.games gid = some g →
      lookupGame (m.gc_games now).games gid =
        (if g.locked = true ∨ g.last_update + gcTtl ≥ now then some g else none)) ∧
    (∀ (m2 : GameManager) (gid2 : GameId) (u : List Char) (now2 : Int)
        (sid : SessionId) (mv : Json),
      lookupGame m2.games gid2 = none →
      (m2.receive_join gid2 u now2 sid).2 = RunResult.err (.GameNotFound gid2) ∧
      (m2.receive_move gid2 sid mv now2).2 = RunResult.err (.GameNotFound gid2) ∧
      m2.get_state gid2 = RunResult.err (.GameNotFound gid2) ∧
      m2.subscribe gid2 = RunResult.err (.GameNotFound gid2)) ∧
    (∀ gid2, lookupGame (m.gc_games now).games gid2 = none →
      m.create_game now gid2 =
        (⟨(gid2, { adapter := Connect4Adapter.new gid2, sessions := [],
                   last_update := now, locked := false }) :: (m.gc_games now).games⟩,
         some gid2)) := by
  refine ⟨?_, ?_, ?_⟩
  · intro g hg
    have h := lookupGame_filter m.games
      (fun kv => if kv.2.locked then true else decide (kv.2.last_update + gcTtl ≥ now))
      gid hnd g hg
    rw [GameManager.gc_games]
    rw [h]
    by_cases hl : g.locked
    · simp [hl]
    · simp only [hl, if_false, Bool.false_eq_true]
      by_cases ht : g.last_update + gcTtl ≥ now
      · simp [ht, hl]
      · simp [ht, hl]
  · intro m2 gid2 u now2 sid mv h
    exact ⟨by simp [GameManager.receive_join, h],
           by simp [GameManager.receive_move, h],
           by simp [GameManager.get_state, h],
           by simp [GameManager.subscribe, h]⟩
  · intro gid2 h
    simp [GameManager.create_game, h]

/-- Witness for C6: the single idle unlocked game (last_update 0) is
evicted by a sweep at time 1000 (past the 300-unit TTL) and get_state then
fails with GameNotFound; the same game is retained by a sweep at time 100;
and the same idle game with its lock held survives the sweep at time
1000. -/
theorem gc_sweep_witness :
    lookupGame ((oneGameManager.gc_games 1000).games) gid0 = none ∧
    lookupGame ((oneGameManager.gc_games 100).games) gid0 = some (waitingGame gid0) ∧
    lookupGame ((lockedManager.gc_games 1000).games) gid0 =
      some { waitingGame gid0 with locked := true } ∧
    (GameManager.mk ((oneGameManager.gc_games 1000).games)).get_state gid0 =
      RunResult.err (.GameNotFound gid0) := by
  have h1 := (gc_sweep oneGameManager 1000 gid0 (by decide)).1 (waitingGame gid0) rfl
  have h2 := (gc_sweep oneGameManager 100 gid0 (by decide)).1 (waitingGame gid0) rfl
  have h3 := (gc_sweep lockedManager 1000 gid0 (by decide)).1
    { waitingGame gid0 with locked := true } rfl
  refine ⟨by simpa using h1, by simpa using h2, by simpa using h3, ?_⟩
  have h4 := ((gc_sweep oneGameManager 1000 gid0 (by decide)).2.1
    (GameManager.mk ((oneGameManager.gc_games 1000).games)) gid0 [] 0 sid0 Json.null
    (by simpa using h1)).2.2.1
  exact h4

end KiloServer

namespace KiloServer

/-! ## Claim theorems: stage monotonicity (C7) -/

theorem stage_rank_le_two (s : Stage) : s.rank ≤ 2 := by
  cases s <;> decide

theorem applyOp_stage_mono (a : Connect4Adapter) (op : AdapterOp) :
    a.stage.rank ≤ (applyOp a op).stage.rank := by
  cases op with
  | addPlayer u =>
    simp only [applyOp, Connect4Adapter.add_player]
    split
    · split
      · next hstage =>
        show a.stage.rank ≤ Stage.rank (if _ = NUM_PLAYERS then Stage.InProgress else a.stage)
        rw [hstage]
        split
        · decide
        · exact Nat.le_refl _
      · exact Nat.le_refl _
    · exact Nat.le_refl _
  | playMove mv =>
    simp only [applyOp, Connect4Adapter.play_move]
    split
    · exact Nat.le_refl _
    · split
      · exact Nat.le_refl _
      · split
        · exact Nat.le_refl _
        · split
          · exact Nat.le_refl _
          · split
            · exact Nat.le_refl _
            · split
              · exact Nat.le_refl _
              · exact Nat.le_refl _
              · split
                · exact stage_rank_le_two a.stage
                · exact Nat.le_refl _

theorem applyOps_stage_mono (ops : List AdapterOp) :
    ∀ a : Connect4Adapter, a.stage.rank ≤ (applyOps a ops).stage.rank := by
  induction ops with
  | nil => intro a; exact Nat.le_refl _
  | cons op rest ih =>
    intro a
    exact Nat.le_trans (applyOp_stage_mono a op) (ih (applyOp a op))

/-- C7: a freshly created adapter starts in Waiting; every single
add_player or play_move call can only keep the stage or advance it along
Waiting, InProgress, Ended (never backwards), hence the stage reported by
get_stage is monotone along every operation sequence; and once Ended, joins
no longer succeed (the registry rejects them with InvalidGameStage and the
adapter-level admission cannot return Ok) and moves are rejected with
InvalidGameStage. -/
theorem stage_monotonicity :
    (∀ gid, (Connect4Adapter.new gid).get_stage = Stage.Waiting) ∧
    (∀ (a : Connect4Adapter) (op : AdapterOp),
      (a.get_stage).rank ≤ ((applyOp a op).get_stage).rank) ∧
    (∀ (a : Connect4Adapter) (ops : List AdapterOp),
      (a.get_stage).rank ≤ ((applyOps a ops).get_stage).rank) ∧
    (∀ (a : Connect4Adapter) (u : List Char),
      a.get_stage = Stage.Ended → (a.add_player u).2 ≠ RunResult.ok ()) ∧
    (∀ (a : Connect4Adapter) (mv : GenericGameMove),
      a.get_stage = Stage.Ended →
      a.play_move mv = (a, RunResult.err (.adapter a.game_id (.InvalidGameStage Stage.Ended)))) ∧
    (∀ (m : GameManager) (gid : GameId) (g : Game) (u : List Char) (now : Int)
        (sid : SessionId),
      lookupGame m.games gid = some g → g.adapter.get_stage = Stage.Ended →
      (m.receive_join gid u now sid).2 =
        RunResult.err (.adapter gid (.InvalidGameStage Stage.Ended))) := by
  refine ⟨fun _ => rfl, applyOp_stage_mono, fun a ops => applyOps_stage_mono ops a, ?_, ?_, ?_⟩
  · intro a u hstage
    have hstage2 : a.stage = Stage.Ended := hstage
    simp only [Connect4Adapter.add_player]
    split
    · rw [if_neg (by rw [hstage2]; exact fun h => Stage.noConfusion h)]
      simp
    · simp
  · intro a mv hstage
    have hstage2 : a.stage = Stage.Ended := hstage
    simp only [Connect4Adapter.play_move]
    rw [if_neg (by rw [hstage2]; exact fun h => Stage.noConfusion h), if_pos hstage2, hstage2]
  · intro m gid g u now sid hg hstage
    have hne : g.adapter.get_stage ≠ Stage.Waiting := by
      rw [hstage]; exact fun h => Stage.noConfusion h
    simp only [GameManager.receive_join, hg]
    rw [if_pos hne, hstage]

/-- Witness for C7: a fresh adapter joined once keeps a monotone stage, and
the concrete ended game rejects a join with InvalidGameStage and a move at
the adapter level likewise. -/
theorem stage_monotonicity_witness :
    (Connect4Adapter.new gid0).get_stage = Stage.Waiting ∧
    ((Connect4Adapter.new gid0).get_stage).rank ≤
      ((applyOps (Connect4Adapter.new gid0)
        [AdapterOp.addPlayer ['a'], AdapterOp.addPlayer ['b']]).get_stage).rank ∧
    (endedAdapter.add_player ['c']).2 ≠ RunResult.ok () ∧
    (endedManager.receive_join gid0 ['c'] 0 sid0).2 =
      RunResult.err (.adapter gid0 (.InvalidGameStage Stage.Ended)) :=
  ⟨stage_monotonicity.1 gid0,
   stage_monotonicity.2.2.1 (Connect4Adapter.new gid0)
     [AdapterOp.addPlayer ['a'], AdapterOp.addPlayer ['b']],
   stage_monotonicity.2.2.2.1 endedAdapter ['c'] rfl,
   stage_monotonicity.2.2.2.2.2 endedManager gid0
     { adapter := endedAdapter, sessions := [], last_update := 0, locked := false }
     ['c'] 0 sid0 rfl rfl⟩

end KiloServer

namespace KiloServer

/-! ## Claim theorems: identifier codec (C8) -/

theorem dropTag_append (p r : List Char) : dropTag p (p ++ r) = some r := by
  induction p with
  | nil => rfl
  | cons c cs ih => simp [dropTag, ih]

theorem dropTag_eq_some (p : List Char) :
    ∀ t r : List Char, dropTag p t = some r → t = p ++ r := by
  induction p with
  | nil =>
    intro t r h
    have h2 : t = r := Option.some.inj h
    simp [h2]
  | cons c cs ih =>
    intro t r h
    cases t with
    | nil => cases h
    | cons c0 t0 =>
      simp only [dropTag] at h
      split at h
      · next hc =>
        rw [hc, List.cons_append, ih t0 r h]
      · cases h

/-- C8: identifier round trip and rejection.  For every GameId and
SessionId value as produced by new() (4 and 16 random bytes), parsing the
display rendering returns the identical id.  And parse rejects every text
that does not start with the expected scheme tag, every text whose suffix
fails to base32-decode, and every text whose suffix decodes to a byte
sequence that is not exactly the fixed width (4 bytes for GameId, 16 bytes
for SessionId). -/
theorem id_round_trip_and_rejection :
    (∀ g : GameId, g.Wf → GameId.visit_str g.toText = some g) ∧
    (∀ s : SessionId, s.Wf → SessionId.visit_str s.toText = some s) ∧
    (∀ t : List Char, (¬ ∃ r, t = gameIdTag ++ r) → GameId.visit_str t = none) ∧
    (∀ t r : List Char, t = gameIdTag ++ r → decode_id r = none →
      GameId.visit_str t = none) ∧
    (∀ (t r : List Char) (bs : List Nat), t = gameIdTag ++ r → decode_id r = some bs →
      bs.length ≠ 4 → GameId.visit_str t = none) ∧
    (∀ t : List Char, (¬ ∃ r, t = sessionIdTag ++ r) → SessionId.visit_str t = none) ∧
    (∀ t r : List Char, t = sessionIdTag ++ r → decode_id r = none →
      SessionId.visit_str t = none) ∧
    (∀ (t r : List Char) (bs : List Nat), t = sessionIdTag ++ r → decode_id r = some bs →
      bs.length ≠ 16 → SessionId.visit_str t = none) := by
  refine ⟨?_, ?_, ?_, ?_, ?_, ?_, ?_, ?_⟩
  · rintro ⟨bs⟩ ⟨hlen, hb⟩
    simp [GameId.visit_str, GameId.toText, validate_id, dropTag_append, encode_id,
      decode_id, base32_round_trip bs hb, hlen]
  · rintro ⟨bs⟩ ⟨hlen, hb⟩
    simp [SessionId.visit_str, SessionId.toText, validate_id, dropTag_append, encode_id,
      decode_id, base32_round_trip bs hb, hlen]
  · intro t hno
    simp only [GameId.visit_str, validate_id]
    cases hd : dropTag gameIdTag t with
    | none => rfl
    | some r => exact absurd ⟨r, dropTag_eq_some gameIdTag t r hd⟩ hno
  · intro t r ht hdec
    subst ht
    simp [GameId.visit_str, validate_id, dropTag_append, hdec]
  · intro t r bs ht hdec hlen
    subst ht
    simp [GameId.visit_str, validate_id, dropTag_append, hdec, hlen]
  · intro t hno
    simp only [SessionId.visit_str, validate_id]
    cases hd : dropTag sessionIdTag t with
    | none => rfl
    | some r => exact absurd ⟨r, dropTag_eq_some sessionIdTag t r hd⟩ hno
  · intro t r ht hdec
    subst ht
    simp [SessionId.visit_str, validate_id, dropTag_append, hdec]
  · intro t r bs ht hdec hlen
    subst ht
    simp [SessionId.visit_str, validate_id, dropTag_append, hdec, hlen]

/-- Witness for C8 at concrete inputs: the id with bytes 1,2,3,4 round
trips; a text with a wrong tag, a text whose suffix holds an invalid
character, and a text whose suffix decodes to 5 bytes are all rejected. -/
theorem id_round_trip_and_rejection_witness :
    GameId.visit_str (GameId.toText ⟨[1, 2, 3, 4]⟩) = some ⟨[1, 2, 3, 4]⟩ ∧
    SessionId.visit_str (SessionId.toText ⟨List.replicate 16 7⟩) =
      some ⟨List.replicate 16 7⟩ ∧
    GameId.visit_str ("session_AAAAAAA".toList) = none ∧
    GameId.visit_str ("game_0AAAAAA".toList) = none ∧
    GameId.visit_str ("game_AAAAAAAA".toList) = none :=
  ⟨id_round_trip_and_rejection.1 ⟨[1, 2, 3, 4]⟩ ⟨rfl, by decide⟩,
   id_round_trip_and_rejection.2.1 ⟨List.replicate 16 7⟩ ⟨rfl, by decide⟩,
   id_round_trip_and_rejection.2.2.1 ("session_AAAAAAA".toList)
     (by rintro ⟨r, h⟩; injection h with h1 h2; exact absurd h1 (by decide)),
   id_round_trip_and_rejection.2.2.2.1 ("game_0AAAAAA".toList) ("0AAAAAA".toList) (by decide)
     (by decide),
   id_round_trip_and_rejection.2.2.2.2.1 ("game_AAAAAAAA".toList) ("AAAAAAAA".toList)
     [0, 0, 0, 0, 0] (by decide) (by decide) (by decide)⟩

end KiloServer

namespace KiloServer

/-! ## Invariant lemmas for the no-panic claim (C9) -/

theorem AdapterInv_new (gid : GameId) : AdapterInv (Connect4Adapter.new gid) := by
  refine ⟨by simp [Connect4Adapter.new, NUM_PLAYERS], by simp [Connect4Adapter.new], ?_, rfl⟩
  intro _ col hcol
  exact List.eq_of_mem_replicate hcol

theorem lookupGame_mem (l : List (GameId × Game)) (gid : GameId) (g : Game) :
    lookupGame l gid = some g → (gid, g) ∈ l := by
  induction l with
  | nil => intro h; cases h
  | cons kv rest ih =>
    rcases kv with ⟨k, g0⟩
    simp only [lookupGame]
    split
    · next hk =>
      intro h
      injection h with h
      subst hk
      subst h
      exact List.mem_cons_self _ _
    · intro h
      exact List.mem_cons_of_mem _ (ih h)

theorem mem_updateGame (l : List (GameId × Game)) (gid : GameId) (g2 : Game)
    (kv : GameId × Game) : kv ∈ updateGame l gid g2 → kv.2 = g2 ∨ kv ∈ l := by
  induction l with
  | nil => intro h; cases h
  | cons kv0 rest ih =>
    rcases kv0 with ⟨k, g0⟩
    simp only [updateGame]
    split
    · intro h
      rcases List.mem_cons.mp h with h | h
      · exact Or.inl (by rw [h])
      · exact Or.inr (List.mem_cons_of_mem _ h)
    · intro h
      rcases List.mem_cons.mp h with h | h
      · exact Or.inr (by rw [h]; exact List.mem_cons_self _ _)
      · rcases ih h with h | h
        · exact Or.inl h
        · exact Or.inr (List.mem_cons_of_mem _ h)

theorem add_player_ok_inv (a : Connect4Adapter) (u : List Char)
    (hinv : AdapterInv a) (hstage : a.stage = Stage.Waiting) :
    (a.add_player u).2 = RunResult.ok () ∧ AdapterInv (a.add_player u).1 := by
  obtain ⟨hiff, hle, hboard, hblen⟩ := hinv
  have hcap : a.players.length < NUM_PLAYERS := hiff.mp hstage
  have hrun : a.add_player u =
      ({ a with players := a.players ++ [u],
                stage := (if (a.players ++ [u]).length = NUM_PLAYERS then Stage.InProgress
                          else a.stage),
                notifier := (a.notifier.send).1 }, RunResult.ok ()) := by
    rw [Connect4Adapter.add_player, if_pos hcap, if_pos hstage]
  rw [hrun]
  refine ⟨rfl, ?_, ?_, ?_, hblen⟩
  · show (if (a.players ++ [u]).length = NUM_PLAYERS then Stage.InProgress else a.stage) =
        Stage.Waiting ↔ (a.players ++ [u]).length < NUM_PLAYERS
    simp only [List.length_append, List.length_cons, List.length_nil]
    split
    · next hfull =>
      constructor
      · intro h; cases h
      · intro h
        simp only [NUM_PLAYERS] at hfull h
        omega
    · next hfull =>
      rw [hstage]
      constructor
      · intro _
        simp only [NUM_PLAYERS] at hcap hfull ⊢
        omega
      · intro _; rfl
  · show (a.players ++ [u]).length ≤ NUM_PLAYERS
    simp only [List.length_append, List.length_cons, List.length_nil]
    simp only [NUM_PLAYERS] at hcap ⊢
    omega
  · show (a.players ++ [u]).length < NUM_PLAYERS → ∀ col ∈ a.game.board, col = []
    intro hlt
    apply hboard
    simp only [List.length_append, List.length_cons, List.length_nil] at hlt
    omega

theorem players_pair_of_length_two (l : List (List Char)) (h : l.length = 2) :
    ∃ p0 p1, l = [p0, p1] := by
  match l, h with
  | [p0, p1], _ => exact ⟨p0, p1, rfl⟩

theorem get_user_some (a : Connect4Adapter) (h : a.players.length = 2) :
    ∃ u, a.get_user_from_token = some u := by
  obtain ⟨p0, p1, hp⟩ := players_pair_of_length_two a.players h
  cases ht : a.game.turn
  · exact ⟨p0, by simp [Connect4Adapter.get_user_from_token, ht, hp]⟩
  · exact ⟨p1, by simp [Connect4Adapter.get_user_from_token, ht, hp]⟩

theorem moves_board_length (g : Connect4) (c : Nat) :
    (g.moves c).1.board.length = g.board.length := by
  simp only [Connect4.moves, Connect4.insert_move_if_legal]
  split
  · rfl
  · split
    · rfl
    · split
      · rfl
      · simp [List.length_set]

theorem moves_players_frame (g : Connect4) (c : Nat) :
    (g.moves c).1.completed = g.completed ∧ (g.moves c).1.turn = g.turn := by
  simp only [Connect4.moves, Connect4.insert_move_if_legal]
  split
  · exact ⟨rfl, rfl⟩
  · split
    · exact ⟨rfl, rfl⟩
    · split
      · exact ⟨rfl, rfl⟩
      · exact ⟨rfl, rfl⟩

end KiloServer

namespace KiloServer

theorem play_move_no_panic_inv (a : Connect4Adapter) (mv : GenericGameMove)
    (hinv : AdapterInv a) :
    (a.play_move mv).2 ≠ RunResult.panicked ∧ AdapterInv (a.play_move mv).1 := by
  obtain ⟨hiff, hle, hboard, hblen⟩ := hinv
  simp only [Connect4Adapter.play_move]
  split
  · exact ⟨by simp, hiff, hle, hboard, hblen⟩
  · next hw =>
    have hlen2 : a.players.length = 2 := by
      have h2 : ¬ a.players.length < NUM_PLAYERS := fun hh => hw (hiff.mpr hh)
      simp only [NUM_PLAYERS] at h2 hle
      omega
    split
    · exact ⟨by simp, hiff, hle, hboard, hblen⟩
    · split
      · exact ⟨by simp, hiff, hle, hboard, hblen⟩
      · split
        · next hgu =>
          exfalso
          obtain ⟨u2, hu2⟩ := get_user_some a hlen2
          rw [hgu] at hu2
          cases hu2
        · next player hgu =>
          split
          · exact ⟨by simp, hiff, hle, hboard, hblen⟩
          · split
            · next g1 e hmv =>
              rcases moves_state_or_ok a.game ‹Nat› with h1 | h2
              · rw [hmv] at h1
                simp only at h1
                rw [h1]
                exact ⟨by simp, hiff, hle, hboard, hblen⟩
              · rw [hmv] at h2
                cases h2
            · next g1 hmv =>
              exfalso
              exact moves_not_panicked a.game ‹Nat› (by rw [hmv])
            · next g1 u0 hmv =>
              have hblen2 : g1.board.length = COL_SIZE := by
                have h3 := moves_board_length a.game ‹Nat›
                rw [hmv] at h3
                simp only at h3
                rw [h3, hblen]
              split
              · refine ⟨by simp, ?_, hle, ?_, hblen2⟩
                · constructor
                  · intro h; cases h
                  · intro h
                    rw [hlen2] at h
                    simp [NUM_PLAYERS] at h
                · intro h
                  rw [hlen2] at h
                  simp [NUM_PLAYERS] at h
              · refine ⟨by simp, hiff, hle, ?_, ?_⟩
                · intro h
                  rw [hlen2] at h
                  simp [NUM_PLAYERS] at h
                · show g1.switch_token.board.length = COL_SIZE
                  simp only [Connect4.switch_token]
                  exact hblen2

theorem encodeColumn_some_of_pair (a : Connect4Adapter) (p0 p1 : List Char)
    (hp : a.players = [p0, p1]) (col : List Token) :
    ∃ x, a.encodeColumn col = some x := by
  induction col with
  | nil => exact ⟨[], rfl⟩
  | cons t ts ih =>
    obtain ⟨x, hx⟩ := ih
    cases t
    · exact ⟨p0 :: x, by
        simp [Connect4Adapter.encodeColumn, Connect4Adapter.tokenOwner, hp, hx]⟩
    · exact ⟨p1 :: x, by
        simp [Connect4Adapter.encodeColumn, Connect4Adapter.tokenOwner, hp, hx]⟩

theorem encodeBoard_some_of_pair (a : Connect4Adapter) (p0 p1 : List Char)
    (hp : a.players = [p0, p1]) (cols : List (List Token)) :
    ∃ x, a.encodeBoard cols = some x := by
  induction cols with
  | nil => exact ⟨[], rfl⟩
  | cons c cs ih =>
    obtain ⟨x, hx⟩ := ih
    obtain ⟨y, hy⟩ := encodeColumn_some_of_pair a p0 p1 hp c
    exact ⟨y :: x, by simp [Connect4Adapter.encodeBoard, hx, hy]⟩

theorem encodeBoard_some_of_empty (a : Connect4Adapter) (cols : List (List Token))
    (h : ∀ col ∈ cols, col = []) : ∃ x, a.encodeBoard cols = some x := by
  induction cols with
  | nil => exact ⟨[], rfl⟩
  | cons c cs ih =>
    obtain ⟨x, hx⟩ := ih (fun col hcol => h col (List.mem_cons_of_mem _ hcol))
    have hc : c = [] := h c (List.mem_cons_self _ _)
    subst hc
    exact ⟨[] :: x, by
      simp [Connect4Adapter.encodeBoard, Connect4Adapter.encodeColumn, hx]⟩

theorem get_encoded_state_ok (a : Connect4Adapter) (hinv : AdapterInv a) :
    ∃ st, a.get_encoded_state = RunResult.ok st ∧
      (∃ fields, st.payload = Json.obj fields) ∧
      st.players = a.players ∧ st.stage = a.stage := by
  obtain ⟨hiff, hle, hboard, hblen⟩ := hinv
  have hb : ∃ x, a.encodeBoard a.game.board = some x := by
    rcases Nat.lt_or_ge a.players.length NUM_PLAYERS with hlt | hge
    · exact encodeBoard_some_of_empty a _ (hboard hlt)
    · have hlen2 : a.players.length = 2 := by
        simp only [NUM_PLAYERS] at hle hge
        omega
      obtain ⟨p0, p1, hp⟩ := players_pair_of_length_two a.players hlen2
      exact encodeBoard_some_of_pair a p0 p1 hp _
  obtain ⟨cells, hcells⟩ := hb
  have hcm : ∃ cm, (if a.stage = Stage.InProgress then
      (a.get_user_from_token).map (fun u => [u]) else some []) = some cm := by
    split
    · next hst =>
      have hlen2 : a.players.length = 2 := by
        have h1 : ¬ a.players.length < NUM_PLAYERS := fun hh => by
          have h2 := hiff.mpr hh
          rw [hst] at h2
          cases h2
        simp only [NUM_PLAYERS] at h1 hle
        omega
      obtain ⟨u2, hu2⟩ := get_user_some a hlen2
      exact ⟨[u2], by rw [hu2]; rfl⟩
    · exact ⟨[], rfl⟩
  obtain ⟨cm, hcm⟩ := hcm
  refine ⟨{ players := a.players, can_move := cm, winners := a.winner, stage := a.stage,
            payload := Json.obj [("cells".toList,
              Json.arr (cells.map (fun col => Json.arr (col.map Json.str))))] },
    ?_, ⟨_, rfl⟩, rfl, rfl⟩
  simp only [Connect4Adapter.get_encoded_state, hcells, hcm]

end KiloServer

namespace KiloServer

theorem gameSummaryOf_some (gid : GameId) (g : Game) (hinv : AdapterInv g.adapter) :
    ∃ s, gameSummaryOf gid g = some s := by
  obtain ⟨st, hst, _, _, _⟩ := get_encoded_state_ok g.adapter hinv
  refine ⟨{ game_id := gid, game_type := g.adapter.get_type, players := st.players,
            stage := st.stage, last_updated := g.last_update }, ?_⟩
  simp [gameSummaryOf, hst]

theorem summariesOf_some (l : List (GameId × Game))
    (h : ∀ kv ∈ l, AdapterInv kv.2.adapter) : ∃ ss, summariesOf l = some ss := by
  induction l with
  | nil => exact ⟨[], rfl⟩
  | cons kv rest ih =>
    obtain ⟨ss, hss⟩ := ih (fun kv2 hkv2 => h kv2 (List.mem_cons_of_mem _ hkv2))
    obtain ⟨s, hs⟩ := gameSummaryOf_some kv.1 kv.2 (h kv (List.mem_cons_self _ _))
    exact ⟨s :: ss, by
      rcases kv with ⟨gid, g⟩
      simp [summariesOf, hs, hss]⟩

theorem apply_not_panicked (sums : List GameSummary) (opts : SearchOptions) :
    SearchEngine.apply sums opts ≠ RunResult.panicked := by
  simp only [SearchEngine.apply]
  split <;> simp

theorem receive_join_no_panic_inv (m : GameManager) (gid : GameId) (u : List Char)
    (now : Int) (sid : SessionId) (hm : ManagerInv m) :
    (m.receive_join gid u now sid).2 ≠ RunResult.panicked ∧
    ManagerInv (m.receive_join gid u now sid).1 := by
  simp only [GameManager.receive_join]
  split
  · exact ⟨by simp, hm⟩
  · next game heq =>
    have hinv : AdapterInv game.adapter := hm (gid, game) (lookupGame_mem _ _ _ heq)
    split
    · exact ⟨by simp, hm⟩
    · next hstageNe =>
      have hstage : game.adapter.stage = Stage.Waiting := not_not.mp hstageNe
      split
      · exact ⟨by simp, hm⟩
      · split
        · exact ⟨by simp, hm⟩
        · split
          · exact ⟨by simp, hm⟩
          · have hok := add_player_ok_inv game.adapter u hinv hstage
            split
            · next ga2 hadd =>
              exfalso
              obtain ⟨h1, _⟩ := hok
              rw [hadd] at h1
              simp at h1
            · next ga2 e hadd =>
              exfalso
              exact add_player_not_err game.adapter u e (by rw [hadd])
            · next ga2 u0 hadd =>
              refine ⟨by simp, ?_⟩
              intro kv hkv
              rcases mem_updateGame m.games gid _ kv hkv with h1 | h2
              · rw [h1]
                obtain ⟨_, h3⟩ := hok
                rw [hadd] at h3
                exact h3
              · exact hm kv h2

theorem receive_move_no_panic_inv (m : GameManager) (gid : GameId) (sid : SessionId)
    (mv : Json) (now : Int) (hm : ManagerInv m) :
    (m.receive_move gid sid mv now).2 ≠ RunResult.panicked ∧
    ManagerInv (m.receive_move gid sid mv now).1 := by
  simp only [GameManager.receive_move]
  split
  · exact ⟨by simp, hm⟩
  · next game heq =>
    have hinv : AdapterInv game.adapter := hm (gid, game) (lookupGame_mem _ _ _ heq)
    split
    · exact ⟨by simp, hm⟩
    · next sess hsess =>
      have hpm := play_move_no_panic_inv game.adapter ⟨sess.username, mv⟩ hinv
      split
      · next ga2 hmatch =>
        exfalso
        obtain ⟨h1, _⟩ := hpm
        rw [hmatch] at h1
        simp at h1
      · next ga2 e hmatch =>
        refine ⟨by simp, ?_⟩
        intro kv hkv
        rcases mem_updateGame m.games gid _ kv hkv with h1 | h2
        · rw [h1]
          obtain ⟨_, h3⟩ := hpm
          rw [hmatch] at h3
          exact h3
        · exact hm kv h2
      · next ga2 u0 hmatch =>
        refine ⟨by simp, ?_⟩
        intro kv hkv
        rcases mem_updateGame m.games gid _ kv hkv with h1 | h2
        · rw [h1]
          obtain ⟨_, h3⟩ := hpm
          rw [hmatch] at h3
          exact h3
        · exact hm kv h2

theorem get_state_not_panicked (m : GameManager) (gid : GameId) (hm : ManagerInv m) :
    m.get_state gid ≠ RunResult.panicked := by
  simp only [GameManager.get_state]
  split
  · simp
  · next game heq =>
    have hinv : AdapterInv game.adapter := hm (gid, game) (lookupGame_mem _ _ _ heq)
    obtain ⟨st, hst, ⟨fields, hpayload⟩, _, _⟩ := get_encoded_state_ok game.adapter hinv
    rw [hst]
    simp [hpayload]

theorem list_games_not_panicked (m : GameManager) (opts : SearchOptions)
    (hm : ManagerInv m) : m.list_games opts ≠ RunResult.panicked := by
  obtain ⟨ss, hss⟩ := summariesOf_some m.games hm
  simp only [GameManager.list_games, hss]
  exact apply_not_panicked ss opts

theorem subscribe_not_panicked (m : GameManager) (gid : GameId) :
    m.subscribe gid ≠ RunResult.panicked := by
  simp only [GameManager.subscribe]
  split <;> simp

theorem create_game_inv (m : GameManager) (now : Int) (gid : GameId)
    (hm : ManagerInv m) : ManagerInv (m.create_game now gid).1 := by
  have hgc : ManagerInv (m.gc_games now) := by
    intro kv hkv
    exact hm kv (List.mem_of_mem_filter hkv)
  simp only [GameManager.create_game]
  split
  · exact hgc
  · intro kv hkv
    rcases List.mem_cons.mp hkv with h1 | h2
    · rw [h1]
      exact AdapterInv_new gid
    · exact hgc kv h2

end KiloServer

namespace KiloServer

/-! ## Claim theorem: no panic on any request path (C9) -/

/-- C9: on every registry satisfying the reachability invariant (which
holds for the empty registry, is established by create_game for each fresh
game, and is preserved by every operation), no core operation reaches a
panic: create_game preserves the invariant, receive_join and receive_move
never return the panicked outcome and preserve the invariant (so the
capacity and stage assertions inside Connect4Adapter::add_player and the
unwraps inside play_move are unreachable), get_state never reaches its
explicit panic (the adapter's encoded payload is always a serde object),
list_games never reaches its unwrap panic, and subscribe cannot panic;
all failures on these paths are typed recoverable results. -/
theorem no_panic_on_request_paths (m : GameManager) (hm : ManagerInv m) :
    (∀ (now : Int) (gid : GameId), ManagerInv (m.create_game now gid).1) ∧
    (∀ (gid : GameId) (u : List Char) (now : Int) (sid : SessionId),
      (m.receive_join gid u now sid).2 ≠ RunResult.panicked ∧
      ManagerInv (m.receive_join gid u now sid).1) ∧
    (∀ (gid : GameId) (sid : SessionId) (mv : Json) (now : Int),
      (m.receive_move gid sid mv now).2 ≠ RunResult.panicked ∧
      ManagerInv (m.receive_move gid sid mv now).1) ∧
    (∀ gid : GameId, m.get_state gid ≠ RunResult.panicked) ∧
    (∀ opts : SearchOptions, m.list_games opts ≠ RunResult.panicked) ∧
    (∀ gid : GameId, m.subscribe gid ≠ RunResult.panicked) ∧
    ManagerInv ⟨[]⟩ ∧
    (∀ gid : GameId, AdapterInv (Connect4Adapter.new gid)) :=
  ⟨fun now gid => create_game_inv m now gid hm,
   fun gid u now sid => receive_join_no_panic_inv m gid u now sid hm,
   fun gid sid mv now => receive_move_no_panic_inv m gid sid mv now hm,
   fun gid => get_state_not_panicked m gid hm,
   fun opts => list_games_not_panicked m opts hm,
   fun gid => subscribe_not_panicked m gid,
   fun kv hkv => absurd hkv (List.not_mem_nil kv),
   AdapterInv_new⟩

/-- Witness for C9 on the concrete one-game registry: its invariant holds,
and the join, state, listing and subscribe paths all avoid the panicked
outcome. -/
theorem no_panic_on_request_paths_witness :
    ((GameManager.receive_join oneGameManager gid0 ['a'] 0 sid0).2 ≠
      RunResult.panicked) ∧
    ((GameManager.receive_move oneGameManager gid0 sid0 Json.null 0).2 ≠
      RunResult.panicked) ∧
    (GameManager.get_state oneGameManager gid0 ≠ RunResult.panicked) ∧
    (GameManager.list_games oneGameManager (pageOnlyOptions 1) ≠ RunResult.panicked) ∧
    (GameManager.subscribe oneGameManager gid0 ≠ RunResult.panicked) := by
  have hm : ManagerInv oneGameManager := by
    intro kv hkv
    have h1 : kv = (gid0, waitingGame gid0) := List.mem_singleton.mp hkv
    rw [h1]
    exact AdapterInv_new gid0
  exact ⟨(no_panic_on_request_paths oneGameManager hm).2.1 gid0 ['a'] 0 sid0 |>.1,
    ((no_panic_on_request_paths oneGameManager hm).2.2.1 gid0 sid0 Json.null 0).1,
    (no_panic_on_request_paths oneGameManager hm).2.2.2.1 gid0,
    (no_panic_on_request_paths oneGameManager hm).2.2.2.2.1 (pageOnlyOptions 1),
    (no_panic_on_request_paths oneGameManager hm).2.2.2.2.2.1 gid0⟩

end KiloServer
